import Mathlib

/-
Verification of libwally-core src/script.c: a shallow embedding of the
script builders, classifiers and integer codecs, with proofs of the
documented properties.

Byte buffers are modelled as `List Nat` (each element a byte value; the C
type is `unsigned char`).  Machine integers are modelled as `Nat`/`Int`
with explicit `% 2^w` where a C cast truncates.  Functions that report
errors return an `Option` or an explicit `Int` wally return code.
Out-parameter style C functions that write into a caller buffer are
modelled as functions from the old buffer contents to the pair
(new buffer contents, written), together with the return code.

External collaborators (hash160, sha256, HMAC-SHA256 and the secp256k1
point operations) are not part of the core (spec section 1/6); they are
passed in as explicit function parameters ("oracles") where a modelled
function consumes them.

Numeric constants that live in the public headers (opcode byte values,
key/hash lengths, flag bits, type tags, confidential-transaction
prefixes) are not under src/; they are modelled from the spec and the
public libwally API with their standard values, noted below.
-/

/-! ### Constants

Opcode values are the standard Bitcoin script opcode bytes (public
header `wally_script.h`, not under src/). -/

def OP_0 : Nat := 0
def OP_PUSHDATA1 : Nat := 76
def OP_PUSHDATA2 : Nat := 77
def OP_PUSHDATA4 : Nat := 78
def OP_1 : Nat := 81
def OP_16 : Nat := 96
def OP_IF : Nat := 99
def OP_NOTIF : Nat := 100
def OP_ELSE : Nat := 103
def OP_ENDIF : Nat := 104
def OP_RETURN : Nat := 106
def OP_IFDUP : Nat := 115
def OP_DEPTH : Nat := 116
def OP_DROP : Nat := 117
def OP_DUP : Nat := 118
def OP_EQUAL : Nat := 135
def OP_EQUALVERIFY : Nat := 136
def OP_1SUB : Nat := 140
def OP_HASH160 : Nat := 169
def OP_CHECKSIG : Nat := 172
def OP_CHECKSIGVERIFY : Nat := 173
def OP_CHECKMULTISIG : Nat := 174
def OP_CHECKSEQUENCEVERIFY : Nat := 178

/- Length constants (public headers, standard values). -/
def EC_PUBLIC_KEY_LEN : Nat := 33
def EC_PUBLIC_KEY_UNCOMPRESSED_LEN : Nat := 65
def EC_XONLY_PUBLIC_KEY_LEN : Nat := 32
def HASH160_LEN : Nat := 20
def SHA256_LEN : Nat := 32
def WALLY_SCRIPTPUBKEY_P2PKH_LEN : Nat := 25
def WALLY_SCRIPTPUBKEY_P2SH_LEN : Nat := 23
def WALLY_SCRIPTPUBKEY_P2WPKH_LEN : Nat := 22
def WALLY_SCRIPTPUBKEY_P2WSH_LEN : Nat := 34
def WALLY_SCRIPTPUBKEY_P2TR_LEN : Nat := 34
def WALLY_MAX_OP_RETURN_LEN : Nat := 80
def WALLY_WITNESSSCRIPT_MAX_LEN : Nat := 42

/- Flag bits (public header `wally_script.h`, standard values). -/
def WALLY_SCRIPT_HASH160 : Nat := 1
def WALLY_SCRIPT_SHA256 : Nat := 2
def WALLY_SCRIPT_AS_PUSH : Nat := 4
def WALLY_SCRIPT_MULTISIG_SORTED : Nat := 8

/- Script type tags (public header `wally_script.h`, standard values). -/
def WALLY_SCRIPT_TYPE_UNKNOWN : Nat := 0
def WALLY_SCRIPT_TYPE_OP_RETURN : Nat := 1
def WALLY_SCRIPT_TYPE_P2PKH : Nat := 2
def WALLY_SCRIPT_TYPE_P2SH : Nat := 4
def WALLY_SCRIPT_TYPE_P2WPKH : Nat := 8
def WALLY_SCRIPT_TYPE_P2WSH : Nat := 16
def WALLY_SCRIPT_TYPE_MULTISIG : Nat := 32
def WALLY_SCRIPT_TYPE_CSV2OF2_1 : Nat := 64
def WALLY_SCRIPT_TYPE_CSV2OF2_1_OPT : Nat := 128
def WALLY_SCRIPT_TYPE_P2TR : Nat := 256

/- Wally return codes (public header `wally_core.h`, standard values). -/
def WALLY_OK : Int := 0
def WALLY_ERROR : Int := -1
def WALLY_EINVAL : Int := -2

/-- Modelled from the spec: the Elements confidential-transaction prefix
bytes and commitment lengths live in `wally_transaction.h`, which is not
under src/; these are the standard libwally values (spec section 4.6:
null = leading zero byte, explicit marker, two blinded prefix bytes per
field kind; value field is 1+8 bytes, asset/nonce fields 1+32 bytes). -/
def WALLY_TX_ASSET_CT_EXPLICIT_PREFIX : Nat := 1
def WALLY_TX_ASSET_CT_VALUE_PREFIX_A : Nat := 8
def WALLY_TX_ASSET_CT_VALUE_PREFIX_B : Nat := 9
def WALLY_TX_ASSET_CT_ASSET_PREFIX_A : Nat := 10
def WALLY_TX_ASSET_CT_ASSET_PREFIX_B : Nat := 11
def WALLY_TX_ASSET_CT_NONCE_PREFIX_A : Nat := 2
def WALLY_TX_ASSET_CT_NONCE_PREFIX_B : Nat := 3
def WALLY_TX_ASSET_CT_VALUE_UNBLIND_LEN : Nat := 9
def WALLY_TX_ASSET_CT_LEN : Nat := 33

/- varint tags and limits (src/script.c). -/
def VI_TAG_16 : Nat := 253
def VI_TAG_32 : Nat := 254
def VI_TAG_64 : Nat := 255
def VI_MAX_8 : Nat := 252
def VI_MAX_16 : Nat := 0xffff
def VI_MAX_32 : Nat := 0xffffffff

/-! ### Generic buffer helpers -/

/-- Overwrite `data.length` bytes of `buf` starting at offset `off`
(the effect of a C `memcpy` into a caller buffer). -/
def writeAt (buf : List Nat) (off : Nat) (data : List Nat) : List Nat :=
  buf.take off ++ data ++ buf.drop (off + data.length)

/-- Little-endian value of a byte list (base 256). -/
def leVal : List Nat → Nat
  | [] => 0
  | b :: bs => b + 256 * leVal bs

/-! ### `varint_get_length`, `varint_to_bytes`, `varint_from_bytes`
(src/script.c lines 118-155, 289-306). -/

def varint_get_length (v : Nat) : Nat :=
  if v ≤ VI_MAX_8 then 1
  else if v ≤ VI_MAX_16 then 1 + 2
  else if v ≤ VI_MAX_32 then 1 + 4
  else 1 + 8

/- The `uintN_to_le_bytes` helpers from script_int.h (not under src/):
write the value little-endian in N/8 bytes and return the byte count. -/
def uint16_to_le_bytes (v : Nat) : List Nat :=
  [v % 256, v / 2 ^ 8 % 256]

def uint32_to_le_bytes (v : Nat) : List Nat :=
  [v % 256, v / 2 ^ 8 % 256, v / 2 ^ 16 % 256, v / 2 ^ 24 % 256]

def uint64_to_le_bytes (v : Nat) : List Nat :=
  [v % 256, v / 2 ^ 8 % 256, v / 2 ^ 16 % 256, v / 2 ^ 24 % 256,
   v / 2 ^ 32 % 256, v / 2 ^ 40 % 256, v / 2 ^ 48 % 256, v / 2 ^ 56 % 256]

/-- `varint_to_bytes`: the bytes written, whose length is the C return
value.  The caller guarantees capacity (spec section 4.1). -/
def varint_to_bytes (v : Nat) : List Nat :=
  if v ≤ VI_MAX_8 then [v % 256]
  else if v ≤ VI_MAX_16 then VI_TAG_16 :: uint16_to_le_bytes v
  else if v ≤ VI_MAX_32 then VI_TAG_32 :: uint32_to_le_bytes v
  else VI_TAG_64 :: uint64_to_le_bytes v

/-- The `b(n)` macro inside `varint_from_bytes`. -/
def vi_b (bytes : List Nat) (n : Nat) : Nat :=
  (bytes.getD n 0) <<< ((n - 1) * 8)

/-- `varint_from_bytes`: returns (decoded value, bytes consumed).  The C
function does not bounds-check; reads past the list end give 0 here, and
every caller guarantees enough bytes (spec section 4.1). -/
def varint_from_bytes (bytes : List Nat) : Nat × Nat :=
  if bytes.getD 0 0 = VI_TAG_16 then
    (vi_b bytes 2 ||| vi_b bytes 1, 1 + 2)
  else if bytes.getD 0 0 = VI_TAG_32 then
    (vi_b bytes 4 ||| vi_b bytes 3 ||| vi_b bytes 2 ||| vi_b bytes 1, 1 + 4)
  else if bytes.getD 0 0 = VI_TAG_64 then
    (vi_b bytes 8 ||| vi_b bytes 7 ||| vi_b bytes 6 ||| vi_b bytes 5 |||
     vi_b bytes 4 ||| vi_b bytes 3 ||| vi_b bytes 2 ||| vi_b bytes 1, 1 + 8)
  else (bytes.getD 0 0, 1)

/-! ### Script integers (src/script.c lines 157-220) -/

/-- The byte-emitting loop shared by `scriptint_get_length` and
`scriptint_to_bytes`: little-endian bytes of `v`, stopping at zero. -/
def scriptintBytes (v : Nat) : List Nat :=
  if h : v = 0 then [] else v % 256 :: scriptintBytes (v / 256)
decreasing_by exact Nat.div_lt_self (Nat.pos_of_ne_zero h) (by norm_num)

/-- `scriptint_get_length`: emitted length plus one sign byte when the
top bit of the last emitted byte is set (`last` is 0 when no byte was
emitted, as in the C local). -/
def scriptint_get_length (signed_v : Int) : Nat :=
  let bs := scriptintBytes signed_v.natAbs
  bs.length + (if bs.getLastD 0 &&& 128 ≠ 0 then 1 else 0)

/-- `scriptint_to_bytes`: the bytes written.  After the emit loop the C
appends `0x80`/`0x00` when the top bit of the last byte is set, else
ORs `0x80` into the last byte for negative values. -/
def scriptint_to_bytes (signed_v : Int) : List Nat :=
  let bs := scriptintBytes signed_v.natAbs
  let last := bs.getLastD 0
  if last &&& 128 ≠ 0 then bs ++ [if signed_v < 0 then 128 else 0]
  else if signed_v < 0 then bs.dropLast ++ [last ||| 128]
  else bs

/-- The accumulation loop of `scriptint_from_bytes`:
`value |= bytes[i+1] << (8*i)` for `i` in `0..n-1`. -/
def scriptintOrLoop (bytes : List Nat) (n : Nat) : Nat :=
  (List.range n).foldl (fun acc i => acc ||| ((bytes.getD (i + 1) 0) <<< (8 * i))) 0

/-- `scriptint_from_bytes`: `bytes[0]` is the data byte count (the push
opcode preceding the integer), followed by that many little-endian data
bytes; at most 4 data bytes are accepted.  `len` is the C buffer-length
parameter.  After the loop the C mask is `0x80 << (8*n)`, and its
`mask >> 8` clears the sign bit before negating.  `none` is
WALLY_EINVAL; NULL pointers are not modelled. -/
def scriptint_from_bytes (bytes : List Nat) (len : Nat) : Option Int :=
  if len < 1 ∨ len ≤ bytes.getD 0 0 ∨ bytes.getD 0 0 > 4 then none
  else
    let n := bytes.getD 0 0
    let acc := scriptintOrLoop bytes n
    if bytes.getD n 0 &&& 128 ≠ 0 then
      some (-((acc ^^^ ((128 <<< (8 * n)) >>> 8) : Nat) : Int))
    else some ((acc : Nat) : Int)

/-! ### Push codec (src/script.c lines 35-116, 895-905) -/

def script_is_op_n (op : Nat) (allow_zero : Bool) : Option Nat :=
  if allow_zero ∧ op = OP_0 then some 0
  else if OP_1 ≤ op ∧ op ≤ OP_16 then some (op - OP_1 + 1)
  else none

/- Note: does no parameter checking, v must be between 0 and 16. -/
def value_to_op_n (v : Nat) : Nat :=
  if v = 0 then OP_0 else OP_1 + v - 1

def is_pk_len (bytes_len : Nat) : Bool :=
  decide (bytes_len = EC_PUBLIC_KEY_LEN ∨ bytes_len = EC_PUBLIC_KEY_UNCOMPRESSED_LEN)

def calc_push_opcode_size (n : Nat) : Nat :=
  if n < 76 then 1
  else if n < 256 then 2
  else if n < 65536 then 3
  else 5

def script_get_push_size (n : Nat) : Nat :=
  calc_push_opcode_size n + n

/-- `get_push_size`: decode the push opcode at the head of `bytes`;
return the opcode-header size or the payload size as selected.
`none` is WALLY_EINVAL. -/
def get_push_size (bytes : List Nat) (get_opcode_size : Bool) : Option Nat :=
  if bytes.length = 0 then none
  else
    let b0 := bytes.getD 0 0
    if b0 < 76 then
      if bytes.length < 1 + b0 then none
      else some (if get_opcode_size then 1 else b0)
    else if b0 = OP_PUSHDATA1 then
      if bytes.length < 2 then none
      else
        let sz := bytes.getD 1 0
        if bytes.length < 2 + sz then none
        else some (if get_opcode_size then 2 else sz)
    else if b0 = OP_PUSHDATA2 then
      if bytes.length < 3 then none
      else
        let sz := bytes.getD 1 0 + 256 * bytes.getD 2 0
        if bytes.length < 3 + sz then none
        else some (if get_opcode_size then 3 else sz)
    else if b0 = OP_PUSHDATA4 then
      if bytes.length < 5 then none
      else
        let sz := bytes.getD 1 0 + 256 * bytes.getD 2 0 +
          65536 * bytes.getD 3 0 + 16777216 * bytes.getD 4 0
        if bytes.length < 5 + sz then none
        else some (if get_opcode_size then 5 else sz)
    else none

def script_get_push_size_from_bytes (bytes : List Nat) : Option Nat :=
  get_push_size bytes false

def script_get_push_opcode_size_from_bytes (bytes : List Nat) : Option Nat :=
  get_push_size bytes true

/-! ### Confidential commitment classifier (src/script.c lines 222-287) -/

/-- `get_commitment_len`.  The C reads only the first byte through a
pointer that may be NULL (`none` here); `!bytes || !*bytes` yields the
1-byte null-commitment length. -/
def get_commitment_len (bytes : Option (List Nat)) (prefixA prefixB : Nat) : Nat :=
  match bytes with
  | none => 1
  | some bs =>
    if bs.getD 0 0 = 0 then 1
    else if bs.getD 0 0 = WALLY_TX_ASSET_CT_EXPLICIT_PREFIX then
      if prefixA = WALLY_TX_ASSET_CT_VALUE_PREFIX_A then
        WALLY_TX_ASSET_CT_VALUE_UNBLIND_LEN
      else WALLY_TX_ASSET_CT_LEN
    else if bs.getD 0 0 = prefixA ∨ bs.getD 0 0 = prefixB then WALLY_TX_ASSET_CT_LEN
    else 0

def confidential_asset_length_from_bytes (bytes : Option (List Nat)) : Nat :=
  get_commitment_len bytes WALLY_TX_ASSET_CT_ASSET_PREFIX_A WALLY_TX_ASSET_CT_ASSET_PREFIX_B

def confidential_value_length_from_bytes (bytes : Option (List Nat)) : Nat :=
  get_commitment_len bytes WALLY_TX_ASSET_CT_VALUE_PREFIX_A WALLY_TX_ASSET_CT_VALUE_PREFIX_B

def confidential_nonce_length_from_bytes (bytes : Option (List Nat)) : Nat :=
  get_commitment_len bytes WALLY_TX_ASSET_CT_NONCE_PREFIX_A WALLY_TX_ASSET_CT_NONCE_PREFIX_B

/-! ### ScriptPubkey classifiers (src/script.c lines 328-534) -/

def scriptpubkey_is_op_return (bytes : List Nat) : Bool :=
  decide (bytes.length ≠ 0 ∧ bytes.getD 0 0 = OP_RETURN)

def scriptpubkey_is_p2pkh (bytes : List Nat) : Bool :=
  decide (bytes.length = WALLY_SCRIPTPUBKEY_P2PKH_LEN ∧
    bytes.getD 0 0 = OP_DUP ∧ bytes.getD 1 0 = OP_HASH160 ∧
    bytes.getD 2 0 = 20 ∧
    bytes.getD 23 0 = OP_EQUALVERIFY ∧ bytes.getD 24 0 = OP_CHECKSIG)

def scriptpubkey_is_p2sh (bytes : List Nat) : Bool :=
  decide (bytes.length = WALLY_SCRIPTPUBKEY_P2SH_LEN ∧
    bytes.getD 0 0 = OP_HASH160 ∧ bytes.getD 1 0 = 20 ∧
    bytes.getD 22 0 = OP_EQUAL)

def scriptpubkey_is_p2wpkh (bytes : List Nat) : Bool :=
  decide (bytes.length = WALLY_SCRIPTPUBKEY_P2WPKH_LEN ∧
    bytes.getD 0 0 = OP_0 ∧ bytes.getD 1 0 = 20)

def scriptpubkey_is_p2wsh (bytes : List Nat) : Bool :=
  decide (bytes.length = WALLY_SCRIPTPUBKEY_P2WSH_LEN ∧
    bytes.getD 0 0 = OP_0 ∧ bytes.getD 1 0 = 32)

def scriptpubkey_is_p2tr (bytes : List Nat) : Bool :=
  decide (bytes.length = WALLY_SCRIPTPUBKEY_P2TR_LEN ∧
    bytes.getD 0 0 = OP_1 ∧ bytes.getD 1 0 = 32)

/-- The key-push loop of `scriptpubkey_is_multisig`, running on the
buffer after the leading threshold opcode. -/
def multisig_pushes_ok : Nat → List Nat → Bool
  | 0, bytes => bytes.length == 2
  | i + 1, bytes =>
    match get_push_size bytes true, get_push_size bytes false with
    | some n_op, some n_push =>
      is_pk_len n_push && decide (n_op + n_push + 2 ≤ bytes.length) &&
        multisig_pushes_ok i (bytes.drop (n_op + n_push))
    | _, _ => false

def scriptpubkey_is_multisig (bytes : List Nat) : Bool :=
  if bytes.length < 1 + 1 + 33 + 1 + 1 then false
  else if (script_is_op_n (bytes.getD 0 0) false).isNone then false
  else if bytes.getD (bytes.length - 1) 0 ≠ OP_CHECKMULTISIG then false
  else
    match script_is_op_n (bytes.getD (bytes.length - 2) 0) false with
    | none => false
    | some n_pushes => multisig_pushes_ok n_pushes (bytes.drop 1)

/-- CSV-recovery template A matcher; `some blocks` is the C `true` with
the decoded CSV delay written through `csv_blocks` (cast to uint32). -/
def scriptpubkey_is_csv_2of2_then_1 (bytes : List Nat) : Option Nat :=
  let min_len := 9 + 2 * (EC_PUBLIC_KEY_LEN + 1) + 2
  if bytes.length < min_len ∨ bytes.length > min_len + 2 then none
  else if bytes.getD 0 0 ≠ OP_DEPTH ∨ bytes.getD 1 0 ≠ OP_1SUB ∨
      bytes.getD 2 0 ≠ OP_IF ∨ bytes.getD 3 0 ≠ EC_PUBLIC_KEY_LEN ∨
      bytes.getD (EC_PUBLIC_KEY_LEN + 4) 0 ≠ OP_CHECKSIGVERIFY ∨
      bytes.getD (EC_PUBLIC_KEY_LEN + 5) 0 ≠ OP_ELSE then none
  else
    let rest := bytes.drop (EC_PUBLIC_KEY_LEN + 6)
    match scriptint_from_bytes rest rest.length with
    | none => none
    | some blocks =>
      if blocks < 17 ∨ blocks > 65535 then none
      else
        let rest2 := rest.drop (rest.getD 0 0 + 1)
        if rest2.length < 3 + (EC_PUBLIC_KEY_LEN + 1) + 1 then none
        else if rest2.getD 0 0 ≠ OP_CHECKSEQUENCEVERIFY ∨ rest2.getD 1 0 ≠ OP_DROP ∨
            rest2.getD 2 0 ≠ OP_ENDIF ∨ rest2.getD 3 0 ≠ EC_PUBLIC_KEY_LEN ∨
            rest2.getD (EC_PUBLIC_KEY_LEN + 4) 0 ≠ OP_CHECKSIG then none
        else some blocks.toNat

/-- CSV-recovery template B (optimized) matcher. -/
def scriptpubkey_is_csv_2of2_then_1_opt (bytes : List Nat) : Option Nat :=
  let min_len := 6 + 2 * (EC_PUBLIC_KEY_LEN + 1) + 2
  if bytes.length < min_len ∨ bytes.length > min_len + 2 then none
  else if bytes.getD 0 0 ≠ EC_PUBLIC_KEY_LEN ∨
      bytes.getD (EC_PUBLIC_KEY_LEN + 1) 0 ≠ OP_CHECKSIGVERIFY ∨
      bytes.getD (EC_PUBLIC_KEY_LEN + 2) 0 ≠ EC_PUBLIC_KEY_LEN then none
  else
    let r1 := bytes.drop (EC_PUBLIC_KEY_LEN * 2 + 3)
    if r1.getD 0 0 ≠ OP_CHECKSIG ∨ r1.getD 1 0 ≠ OP_IFDUP ∨
        r1.getD 2 0 ≠ OP_NOTIF then none
    else
      let rest := r1.drop 3
      match scriptint_from_bytes rest rest.length with
      | none => none
      | some blocks =>
        if blocks < 17 ∨ blocks > 65535 then none
        else
          let rest2 := rest.drop (rest.getD 0 0 + 1)
          if rest2.length ≠ 2 ∨ rest2.getD 0 0 ≠ OP_CHECKSEQUENCEVERIFY ∨
              rest2.getD 1 0 ≠ OP_ENDIF then none
          else some blocks.toNat

/-- `wally_scriptpubkey_csv_blocks_from_csv_2of2_then_1`: try template A
then template B; `none` is WALLY_EINVAL. -/
def wally_scriptpubkey_csv_blocks_from_csv_2of2_then_1 (bytes : List Nat) : Option Nat :=
  if bytes.length = 0 then none
  else
    match scriptpubkey_is_csv_2of2_then_1 bytes with
    | some b => some b
    | none =>
      match scriptpubkey_is_csv_2of2_then_1_opt bytes with
      | some b => some b
      | none => none

/-- `wally_scriptpubkey_get_type`: `none` is WALLY_EINVAL for empty
input, otherwise the type tag written through the out-parameter. -/
def wally_scriptpubkey_get_type (bytes : List Nat) : Option Nat :=
  if bytes.length = 0 then none
  else if scriptpubkey_is_op_return bytes then some WALLY_SCRIPT_TYPE_OP_RETURN
  else if scriptpubkey_is_multisig bytes then some WALLY_SCRIPT_TYPE_MULTISIG
  else
    match scriptpubkey_is_csv_2of2_then_1 bytes with
    | some _ => some WALLY_SCRIPT_TYPE_CSV2OF2_1
    | none =>
      match scriptpubkey_is_csv_2of2_then_1_opt bytes with
      | some _ => some WALLY_SCRIPT_TYPE_CSV2OF2_1_OPT
      | none =>
        if bytes.length = WALLY_SCRIPTPUBKEY_P2PKH_LEN then
          if scriptpubkey_is_p2pkh bytes then some WALLY_SCRIPT_TYPE_P2PKH
          else some WALLY_SCRIPT_TYPE_UNKNOWN
        else if bytes.length = WALLY_SCRIPTPUBKEY_P2SH_LEN then
          if scriptpubkey_is_p2sh bytes then some WALLY_SCRIPT_TYPE_P2SH
          else some WALLY_SCRIPT_TYPE_UNKNOWN
        else if bytes.length = WALLY_SCRIPTPUBKEY_P2WPKH_LEN then
          if scriptpubkey_is_p2wpkh bytes then some WALLY_SCRIPT_TYPE_P2WPKH
          else some WALLY_SCRIPT_TYPE_UNKNOWN
        else if bytes.length = WALLY_SCRIPTPUBKEY_P2WSH_LEN then
          if scriptpubkey_is_p2wsh bytes then some WALLY_SCRIPT_TYPE_P2WSH
          else if scriptpubkey_is_p2tr bytes then some WALLY_SCRIPT_TYPE_P2TR
          else some WALLY_SCRIPT_TYPE_UNKNOWN
        else some WALLY_SCRIPT_TYPE_UNKNOWN

/-! ### Builders (src/script.c lines 27-33, 536-1056, 1299-1341)

Builders return `(ret, new buffer contents, written)`, the C triple of
return code, caller buffer state and out-parameter.  Hash and EC
operations are external collaborators passed as function parameters:
`h160` must return 20 bytes, `sha` 32 bytes, `bip341` the 33-byte
tweaked compressed key (`none` = tweak failure); theorems state these
contracts as hypotheses. -/

def ALL_SCRIPT_HASH_FLAGS : Nat := WALLY_SCRIPT_HASH160 ||| WALLY_SCRIPT_SHA256

def EC_FLAG_ELEMENTS : Nat := 4

/-- `script_flags_ok`; `~x` on a uint32 is `0xffffffff ^^^ x`. -/
def script_flags_ok (flags extra_flags : Nat) : Bool :=
  decide (flags &&& (0xffffffff ^^^ (ALL_SCRIPT_HASH_FLAGS ||| extra_flags)) = 0 ∧
    flags &&& ALL_SCRIPT_HASH_FLAGS ≠ ALL_SCRIPT_HASH_FLAGS)

/-- `wally_script_push_from_bytes`. -/
def wally_script_push_from_bytes (h160 sha : List Nat → List Nat)
    (bytes : List Nat) (flags : Nat) (buf : List Nat) : Int × List Nat × Nat :=
  if ¬ script_flags_ok flags 0 ∨ buf.length = 0 then (WALLY_EINVAL, buf, 0)
  else
    let bs := if flags &&& WALLY_SCRIPT_HASH160 ≠ 0 then h160 bytes
      else if flags &&& WALLY_SCRIPT_SHA256 ≠ 0 then sha bytes
      else bytes
    let opcode_len := calc_push_opcode_size bs.length
    let written := bs.length + opcode_len
    if buf.length < written then (WALLY_OK, buf, written)
    else
      let header :=
        if bs.length < 76 then [bs.length]
        else if bs.length < 256 then [OP_PUSHDATA1, bs.length]
        else if bs.length < 65536 then
          [OP_PUSHDATA2, bs.length % 256, bs.length / 256 % 256]
        else
          [OP_PUSHDATA4, bs.length % 256, bs.length / 256 % 256,
           bs.length / 65536 % 256, bs.length / 16777216 % 256]
      (WALLY_OK, writeAt buf 0 (header ++ bs), written)

/-- Splice a rewritten sub-buffer of capacity `cap` that a nested call
received (pointer `buf + off`, length `cap`) back into the whole. -/
def spliceRegion (buf : List Nat) (off cap : Nat) (region : List Nat) : List Nat :=
  buf.take off ++ region ++ buf.drop (off + cap)

/-- `wally_scriptpubkey_p2pkh_from_bytes`. -/
def wally_scriptpubkey_p2pkh_from_bytes (h160 sha : List Nat → List Nat)
    (bytes : List Nat) (flags : Nat) (buf : List Nat) : Int × List Nat × Nat :=
  if bytes.length = 0 ∨ ¬ script_flags_ok flags 0 ∨
      flags &&& WALLY_SCRIPT_SHA256 ≠ 0 ∨ buf.length = 0 then
    (WALLY_EINVAL, buf, 0)
  else if buf.length < WALLY_SCRIPTPUBKEY_P2PKH_LEN then
    (WALLY_OK, buf, WALLY_SCRIPTPUBKEY_P2PKH_LEN)
  else if (if flags &&& WALLY_SCRIPT_HASH160 ≠ 0 then
      bytes.length ≠ EC_PUBLIC_KEY_LEN ∧ bytes.length ≠ EC_PUBLIC_KEY_UNCOMPRESSED_LEN
    else bytes.length ≠ HASH160_LEN) then (WALLY_EINVAL, buf, 0)
  else
    let buf1 := writeAt buf 0 [OP_DUP, OP_HASH160]
    match wally_script_push_from_bytes h160 sha bytes flags
        ((buf1.drop 2).take (buf.length - 4)) with
    | (ret, region, w) =>
      let buf2 := spliceRegion buf1 2 (buf.length - 4) region
      if ret = WALLY_OK then
        (WALLY_OK,
         writeAt buf2 (WALLY_SCRIPTPUBKEY_P2PKH_LEN - 2) [OP_EQUALVERIFY, OP_CHECKSIG],
         WALLY_SCRIPTPUBKEY_P2PKH_LEN)
      else (ret, buf2, w)

/-- `wally_scriptpubkey_op_return_from_bytes`.  Note the C stores the
leading OP_RETURN byte whenever the nested push succeeds, including
when the push only reported a required size. -/
def wally_scriptpubkey_op_return_from_bytes (h160 sha : List Nat → List Nat)
    (bytes : List Nat) (flags : Nat) (buf : List Nat) : Int × List Nat × Nat :=
  if bytes.length > WALLY_MAX_OP_RETURN_LEN ∨ flags ≠ 0 ∨ buf.length = 0 then
    (WALLY_EINVAL, buf, 0)
  else
    match wally_script_push_from_bytes h160 sha bytes flags
        ((buf.drop 1).take (buf.length - 1)) with
    | (ret, region, w) =>
      let buf1 := spliceRegion buf 1 (buf.length - 1) region
      if ret = WALLY_OK then (WALLY_OK, writeAt buf1 0 [OP_RETURN], w + 1)
      else (ret, buf1, w)

/-- `wally_scriptpubkey_p2sh_from_bytes`. -/
def wally_scriptpubkey_p2sh_from_bytes (h160 sha : List Nat → List Nat)
    (bytes : List Nat) (flags : Nat) (buf : List Nat) : Int × List Nat × Nat :=
  if bytes.length = 0 ∨ flags &&& (0xffffffff ^^^ WALLY_SCRIPT_HASH160) ≠ 0 ∨
      buf.length = 0 then (WALLY_EINVAL, buf, 0)
  else if flags &&& WALLY_SCRIPT_HASH160 = 0 ∧ bytes.length ≠ HASH160_LEN then
    (WALLY_EINVAL, buf, 0)
  else if buf.length < WALLY_SCRIPTPUBKEY_P2SH_LEN then
    (WALLY_OK, buf, WALLY_SCRIPTPUBKEY_P2SH_LEN)
  else
    let buf1 := writeAt buf 0 [OP_HASH160]
    match wally_script_push_from_bytes h160 sha bytes flags
        ((buf1.drop 1).take (buf.length - 2)) with
    | (ret, region, w) =>
      let buf2 := spliceRegion buf1 1 (buf.length - 2) region
      if ret = WALLY_OK then
        (WALLY_OK, writeAt buf2 (WALLY_SCRIPTPUBKEY_P2SH_LEN - 1) [OP_EQUAL],
         WALLY_SCRIPTPUBKEY_P2SH_LEN)
      else (ret, buf2, w)

/-- The 33-byte chunks a key array is processed as (`bytes_len` is a
multiple of `EC_PUBLIC_KEY_LEN`). -/
def chunk33 (bytes : List Nat) : List (List Nat) :=
  if h : bytes.length = 0 then []
  else bytes.take 33 :: chunk33 (bytes.drop 33)
termination_by bytes.length
decreasing_by simp only [List.length_drop]; omega

/-- `pubkey_compare` as a sort order: `memcmp` over the fixed-width
33-byte chunks, as a lexicographic boolean order. -/
def memcmpLe : List Nat → List Nat → Bool
  | [], _ => true
  | _ :: _, [] => false
  | a :: as, b :: bs => if a < b then true else if b < a then false else memcmpLe as bs

/-- `wally_scriptpubkey_multisig_from_bytes`.  The C `qsort` with
`pubkey_compare` is modelled as a merge sort under `memcmpLe`: the
comparator inspects every byte of the fixed-width elements, so equal
elements are identical and every correct sort yields this output. -/
def wally_scriptpubkey_multisig_from_bytes (bytes : List Nat) (threshold : Nat)
    (flags : Nat) (buf : List Nat) : Int × List Nat × Nat :=
  let n_pubkeys := bytes.length / EC_PUBLIC_KEY_LEN
  let script_len := 3 + n_pubkeys * (EC_PUBLIC_KEY_LEN + 1)
  if bytes.length = 0 ∨ bytes.length % EC_PUBLIC_KEY_LEN ≠ 0 ∨
      n_pubkeys < 1 ∨ n_pubkeys > 15 ∨ threshold < 1 ∨ threshold > 15 ∨
      threshold > n_pubkeys ∨
      flags &&& (0xffffffff ^^^ WALLY_SCRIPT_MULTISIG_SORTED) ≠ 0 ∨
      buf.length = 0 then (WALLY_EINVAL, buf, 0)
  else if buf.length < script_len then (WALLY_OK, buf, script_len)
  else
    let keys := chunk33 bytes
    let sorted := if flags &&& WALLY_SCRIPT_MULTISIG_SORTED ≠ 0 then
      keys.mergeSort memcmpLe else keys
    let script := value_to_op_n threshold ::
      (sorted.flatMap (fun k => EC_PUBLIC_KEY_LEN :: k)) ++
      [value_to_op_n n_pubkeys, OP_CHECKMULTISIG]
    (WALLY_OK, writeAt buf 0 script, script_len)

/-- `wally_scriptpubkey_csv_2of2_then_1_from_bytes` (template A). -/
def wally_scriptpubkey_csv_2of2_then_1_from_bytes (bytes : List Nat)
    (csv_blocks : Nat) (flags : Nat) (buf : List Nat) : Int × List Nat × Nat :=
  let csv_len := scriptint_get_length (Int.ofNat csv_blocks)
  let script_len := 2 * (EC_PUBLIC_KEY_LEN + 1) + 9 + 1 + csv_len
  if bytes.length ≠ 2 * EC_PUBLIC_KEY_LEN ∨ csv_blocks < 17 ∨
      csv_blocks > 0xffff ∨ flags ≠ 0 then (WALLY_EINVAL, buf, 0)
  else if buf.length < script_len then (WALLY_OK, buf, script_len)
  else
    let script := [OP_DEPTH, OP_1SUB, OP_IF, EC_PUBLIC_KEY_LEN] ++
      bytes.take EC_PUBLIC_KEY_LEN ++
      [OP_CHECKSIGVERIFY, OP_ELSE, csv_len &&& 0xff] ++
      scriptint_to_bytes (Int.ofNat csv_blocks) ++
      [OP_CHECKSEQUENCEVERIFY, OP_DROP, OP_ENDIF, EC_PUBLIC_KEY_LEN] ++
      (bytes.drop EC_PUBLIC_KEY_LEN).take EC_PUBLIC_KEY_LEN ++ [OP_CHECKSIG]
    (WALLY_OK, writeAt buf 0 script, script_len)

/-- `wally_scriptpubkey_csv_2of2_then_1_from_bytes_opt` (template B). -/
def wally_scriptpubkey_csv_2of2_then_1_from_bytes_opt (bytes : List Nat)
    (csv_blocks : Nat) (flags : Nat) (buf : List Nat) : Int × List Nat × Nat :=
  let csv_len := scriptint_get_length (Int.ofNat csv_blocks)
  let script_len := 2 * (EC_PUBLIC_KEY_LEN + 1) + 6 + 1 + csv_len
  if bytes.length ≠ 2 * EC_PUBLIC_KEY_LEN ∨ csv_blocks < 17 ∨
      csv_blocks > 0xffff ∨ flags ≠ 0 then (WALLY_EINVAL, buf, 0)
  else if buf.length < script_len then (WALLY_OK, buf, script_len)
  else
    let script := EC_PUBLIC_KEY_LEN ::
      (bytes.drop EC_PUBLIC_KEY_LEN).take EC_PUBLIC_KEY_LEN ++
      [OP_CHECKSIGVERIFY, EC_PUBLIC_KEY_LEN] ++
      bytes.take EC_PUBLIC_KEY_LEN ++
      [OP_CHECKSIG, OP_IFDUP, OP_NOTIF, csv_len &&& 0xff] ++
      scriptint_to_bytes (Int.ofNat csv_blocks) ++
      [OP_CHECKSEQUENCEVERIFY, OP_ENDIF]
    (WALLY_OK, writeAt buf 0 script, script_len)

/-- `wally_witness_program_from_bytes_and_version`.  Note the C stores
the witness-version byte (and, for AS_PUSH, the outer push-opcode byte)
even when the nested push only reported a required size. -/
def wally_witness_program_from_bytes_and_version (h160 sha : List Nat → List Nat)
    (bytes : List Nat) (version : Nat) (flags : Nat) (buf : List Nat) :
    Int × List Nat × Nat :=
  let v1plus_max_size := WALLY_WITNESSSCRIPT_MAX_LEN - 2
  if version > 16 ∨ ¬ script_flags_ok flags WALLY_SCRIPT_AS_PUSH ∨
      buf.length = 0 then (WALLY_EINVAL, buf, 0)
  else if (if flags &&& ALL_SCRIPT_HASH_FLAGS ≠ 0 then bytes.length = 0
    else if version = 0 ∧ bytes.length ≠ HASH160_LEN ∧ bytes.length ≠ SHA256_LEN then True
    else bytes.length < 2 ∨ bytes.length > v1plus_max_size) then (WALLY_EINVAL, buf, 0)
  else if flags &&& WALLY_SCRIPT_AS_PUSH ≠ 0 ∧ buf.length < 2 then (WALLY_EINVAL, buf, 0)
  else
    let off := if flags &&& WALLY_SCRIPT_AS_PUSH ≠ 0 then 1 else 0
    let cap := buf.length - off
    let buf1 := writeAt buf off [value_to_op_n version]
    match wally_script_push_from_bytes h160 sha bytes
        (flags &&& (0xffffffff ^^^ WALLY_SCRIPT_AS_PUSH))
        ((buf1.drop (off + 1)).take (cap - 1)) with
    | (ret, region, w) =>
      let buf2 := spliceRegion buf1 (off + 1) (cap - 1) region
      if ret = WALLY_OK then
        if flags &&& WALLY_SCRIPT_AS_PUSH ≠ 0 then
          (WALLY_OK, writeAt buf2 0 [(w + 1) &&& 0xff], w + 2)
        else (WALLY_OK, buf2, w + 1)
      else (ret, buf2, w)

/-- `wally_scriptpubkey_p2tr_from_bytes`.  `bip341 bytes flags` models
`wally_ec_public_key_bip341_tweak` and must return the 33-byte tweaked
compressed key; the C then uses the 32 bytes after the parity byte.
The repository version guards the flag check with BUILD_ELEMENTS,
which is on (the Elements code in this file is unconditional). -/
def wally_scriptpubkey_p2tr_from_bytes (bip341 : List Nat → Nat → Option (List Nat))
    (bytes : List Nat) (flags : Nat) (buf : List Nat) : Int × List Nat × Nat :=
  if flags &&& (0xffffffff ^^^ EC_FLAG_ELEMENTS) ≠ 0 then (WALLY_EINVAL, buf, 0)
  else if buf.length < WALLY_SCRIPTPUBKEY_P2TR_LEN then
    (WALLY_OK, buf, WALLY_SCRIPTPUBKEY_P2TR_LEN)
  else if bytes.length = EC_PUBLIC_KEY_LEN then
    match bip341 bytes flags with
    | none => (WALLY_EINVAL, buf, 0)
    | some tweaked =>
      let xonly := (tweaked.drop 1).take EC_XONLY_PUBLIC_KEY_LEN
      (WALLY_OK,
       writeAt buf 0 ([OP_1, EC_XONLY_PUBLIC_KEY_LEN] ++ xonly),
       WALLY_SCRIPTPUBKEY_P2TR_LEN)
  else if bytes.length ≠ EC_XONLY_PUBLIC_KEY_LEN then (WALLY_EINVAL, buf, 0)
  else
    (WALLY_OK, writeAt buf 0 ([OP_1, EC_XONLY_PUBLIC_KEY_LEN] ++ bytes),
     WALLY_SCRIPTPUBKEY_P2TR_LEN)

/-! ### Pegin contract script rewriter (src/script.c lines 1116-1210) -/

/-- Opcode sizes decoded from a buffer are 1, 2, 3 or 5, hence
positive (used for the loop measure of the pegin rewriter). -/
def get_push_opcode_size_pos (bytes : List Nat) (k : Nat)
    (h : script_get_push_opcode_size_from_bytes bytes = some k) : 1 ≤ k := by
  simp only [script_get_push_opcode_size_from_bytes, get_push_size, if_true] at h
  repeat' split at h
  all_goals try simp_all
  all_goals omega

/-- The walk of `wally_elements_pegin_contract_script_from_bytes`:
`p` is the remaining redeem script, `buf` the whole output buffer,
`q` the current write offset.  `tw` models the external pipeline
`pubkey_parse` / HMAC-SHA256 tweak / `pubkey_tweak_add` /
`pubkey_serialize` plus the elementsd sanity checks: it maps the
33 pushed key bytes to the serialized tweaked key, `none` for any
failure on that pipeline.  `none` here collapses the C error paths
(WALLY_EINVAL/WALLY_ERROR and their partial buffer states); the claims
concern successful runs only. -/
def pegin_loop (tw : List Nat → Option (List Nat)) (p : List Nat)
    (buf : List Nat) (q : Nat) (op_else_found : Bool) : Option (List Nat) :=
  match hp : p with
  | [] => some buf
  | b :: rest =>
    match script_get_push_size_from_bytes p with
    | some size_out =>
      match hop : script_get_push_opcode_size_from_bytes p with
      | some opcode_size =>
        let offset_siz := size_out + opcode_size
        if hlen : p.length < offset_siz then none
        else if opcode_size = 1 ∧ size_out = EC_PUBLIC_KEY_LEN ∧ op_else_found = false then
          match tw ((p.drop 1).take EC_PUBLIC_KEY_LEN) with
          | none => none
          | some ser =>
            match wally_script_push_from_bytes (fun x => x) (fun x => x) ser 0
                ((buf.drop q).take p.length) with
            | (ret, region, _) =>
              if ret = WALLY_OK then
                pegin_loop tw (p.drop offset_siz)
                  (spliceRegion buf q p.length region) (q + offset_siz) op_else_found
              else none
        else
          pegin_loop tw (p.drop offset_siz)
            (writeAt buf q (p.take offset_siz)) (q + offset_siz) op_else_found
      | none => none
    | none =>
      let op_else2 := if b = OP_ELSE then true else op_else_found
      pegin_loop tw rest (writeAt buf q [b]) (q + 1) op_else2
termination_by p.length
decreasing_by
  all_goals subst hp
  all_goals simp only [List.length_drop, List.length_cons]
  all_goals try exact Nat.lt_succ_self _
  all_goals have h1 := get_push_opcode_size_pos _ opcode_size hop
  all_goals omega

/-- `wally_elements_pegin_contract_script_from_bytes`.  The contract
`script` enters only through `tw` (the HMAC key material), so it is
captured in the oracle closure. -/
def wally_elements_pegin_contract_script_from_bytes
    (tw : List Nat → Option (List Nat)) (redeem_script : List Nat)
    (script_len : Nat) (flags : Nat) (buf : List Nat) : Int × List Nat × Nat :=
  if redeem_script.length = 0 ∨ script_len = 0 ∨ flags ≠ 0 ∨
      buf.length ≠ redeem_script.length then (WALLY_EINVAL, buf, 0)
  else
    match pegin_loop tw redeem_script buf 0 false with
    | none => (WALLY_ERROR, buf, 0)
    | some out => (WALLY_OK, out, redeem_script.length)

/-- The frame condition of the rewriter, stated from the spec: walk the
redeem script exactly as the rewriter does and mark which byte offsets
belong to a 33-byte direct key push seen before the first OP_ELSE
opcode (the bytes the rewrite may change); all other offsets must be
copied unchanged. -/
def peginMask (p : List Nat) (op_else_found : Bool) : List Bool :=
  match hp : p with
  | [] => []
  | b :: rest =>
    match script_get_push_size_from_bytes p with
    | some size_out =>
      match hop : script_get_push_opcode_size_from_bytes p with
      | some opcode_size =>
        let offset_siz := size_out + opcode_size
        if hlen : p.length < offset_siz then []
        else if opcode_size = 1 ∧ size_out = EC_PUBLIC_KEY_LEN ∧ op_else_found = false then
          List.replicate offset_siz true ++ peginMask (p.drop offset_siz) op_else_found
        else
          List.replicate offset_siz false ++ peginMask (p.drop offset_siz) op_else_found
      | none => []
    | none =>
      let op_else2 := if b = OP_ELSE then true else op_else_found
      false :: peginMask rest op_else2
termination_by p.length
decreasing_by
  all_goals subst hp
  all_goals simp only [List.length_drop, List.length_cons]
  all_goals try exact Nat.lt_succ_self _
  all_goals have h1 := get_push_opcode_size_pos _ opcode_size hop
  all_goals omega

/-! ### Bit-arithmetic toolkit -/

theorem testBit_add_mul_pow_lt (c k a i : Nat) (hik : i < k) :
    (c * 2 ^ k + a).testBit i = a.testBit i := by
  obtain ⟨j, rfl⟩ : ∃ j, k = j + 1 + i := ⟨k - i - 1, by omega⟩
  rw [Nat.testBit_to_div_mod, Nat.testBit_to_div_mod]
  have h1 : c * 2 ^ (j + 1 + i) + a = a + c * 2 ^ j * 2 * 2 ^ i := by ring
  rw [h1, Nat.add_mul_div_right _ _ (Nat.pos_pow_of_pos i (by norm_num)),
    Nat.add_mul_mod_self_right]

theorem testBit_add_mul_pow_ge (c k a i : Nat) (ha : a < 2 ^ k) (hik : k ≤ i) :
    (c * 2 ^ k + a).testBit i = c.testBit (i - k) := by
  rw [Nat.testBit_to_div_mod, Nat.testBit_to_div_mod]
  have h2 : (2 : Nat) ^ i = 2 ^ k * 2 ^ (i - k) := by
    rw [← pow_add]; congr 1; omega
  have h3 : c * 2 ^ k + a = a + 2 ^ k * c := by ring
  rw [h2, ← Nat.div_div_eq_div_mul, h3,
    Nat.add_mul_div_left _ _ (Nat.pos_pow_of_pos k (by norm_num)),
    Nat.div_eq_of_lt ha, Nat.zero_add]

theorem shiftLeft_lor_eq (c a k : Nat) (ha : a < 2 ^ k) :
    (c <<< k) ||| a = c * 2 ^ k + a := by
  apply Nat.eq_of_testBit_eq
  intro i
  rw [Nat.testBit_lor, Nat.testBit_shiftLeft]
  rcases Nat.lt_or_ge i k with h | h
  · rw [testBit_add_mul_pow_lt c k a i h]
    have : ¬ (i ≥ k) := by omega
    simp [this]
  · rw [testBit_add_mul_pow_ge c k a i ha h]
    have hf : a.testBit i = false :=
      Nat.testBit_lt_two_pow (lt_of_lt_of_le ha (Nat.pow_le_pow_right (by norm_num) h))
    simp [h, hf]

theorem lor_eq_add_of_dvd (X a k : Nat) (hX : 2 ^ k ∣ X) (ha : a < 2 ^ k) :
    X ||| a = X + a := by
  obtain ⟨c, rfl⟩ := hX
  have h1 : 2 ^ k * c = c <<< k := by rw [Nat.shiftLeft_eq]; ring
  rw [h1, shiftLeft_lor_eq c a k ha, Nat.shiftLeft_eq]

theorem lor_shiftLeft_distrib (a b k : Nat) :
    (a ||| b) <<< k = (a <<< k) ||| (b <<< k) := by
  apply Nat.eq_of_testBit_eq
  intro i
  rw [Nat.testBit_shiftLeft, Nat.testBit_lor, Nat.testBit_lor,
    Nat.testBit_shiftLeft, Nat.testBit_shiftLeft]
  by_cases h : i ≥ k <;> simp [h]

theorem two_pow_dvd_shiftLeft (x m k : Nat) (h : k ≤ m) : 2 ^ k ∣ x <<< m := by
  rw [Nat.shiftLeft_eq]
  exact Dvd.dvd.mul_left (pow_dvd_pow 2 h) x

theorem two_pow_dvd_lor (x y k : Nat) (hx : 2 ^ k ∣ x) (hy : 2 ^ k ∣ y) :
    2 ^ k ∣ (x ||| y) := by
  obtain ⟨c, rfl⟩ := hx
  obtain ⟨d, rfl⟩ := hy
  have h1 : 2 ^ k * c = c <<< k := by rw [Nat.shiftLeft_eq]; ring
  have h2 : 2 ^ k * d = d <<< k := by rw [Nat.shiftLeft_eq]; ring
  rw [h1, h2, ← lor_shiftLeft_distrib, Nat.shiftLeft_eq]
  exact Dvd.intro_left _ rfl

theorem shiftLeft_lt_of_lt (x m j : Nat) (hx : x < 2 ^ 8) (hm : m + 8 ≤ j) :
    x <<< m < 2 ^ j := by
  rw [Nat.shiftLeft_eq]
  have h1 : x * 2 ^ m < 2 ^ 8 * 2 ^ m :=
    Nat.mul_lt_mul_of_pos_right hx (by positivity)
  have h2 : (2 : Nat) ^ 8 * 2 ^ m = 2 ^ (8 + m) := (pow_add 2 8 m).symm
  have h3 : (2 : Nat) ^ (8 + m) ≤ 2 ^ j := Nat.pow_le_pow_right (by norm_num) (by omega)
  omega

theorem add_two_pow_xor (m k : Nat) (h : m < 2 ^ k) :
    (m + 2 ^ k) ^^^ 2 ^ k = m := by
  apply Nat.eq_of_testBit_eq
  intro i
  rw [Nat.testBit_xor]
  have hm : m + 2 ^ k = 1 * 2 ^ k + m := by ring
  rcases lt_trichotomy i k with hik | hik | hik
  · rw [hm, testBit_add_mul_pow_lt 1 k m i hik, Nat.testBit_two_pow]
    have : k ≠ i := by omega
    simp [this]
  · rw [hik, hm, testBit_add_mul_pow_ge 1 k m k h (le_refl k), Nat.testBit_two_pow,
      Nat.testBit_lt_two_pow h]
    simp
  · rw [hm, testBit_add_mul_pow_ge 1 k m i h (le_of_lt hik), Nat.testBit_two_pow]
    have h1 : Nat.testBit 1 (i - k) = false := by
      rw [show (1 : Nat) = 2 ^ 0 from rfl, Nat.testBit_two_pow]
      simp; omega
    have h2 : m.testBit i = false :=
      Nat.testBit_lt_two_pow
        (lt_of_lt_of_le h (Nat.pow_le_pow_right (by norm_num) (le_of_lt hik)))
    have h3 : k ≠ i := by omega
    simp [h1, h2, h3]

theorem and_128_eq_zero {a : Nat} (h : a < 128) : a &&& 128 = 0 := by
  have h1 := Nat.and_two_pow a 7
  have h2 : a.testBit 7 = false := Nat.testBit_lt_two_pow (by norm_num; omega)
  rw [h2] at h1
  simpa using h1

theorem and_128_ne_zero {a : Nat} (h1 : 128 ≤ a) (h2 : a < 256) :
    a &&& 128 ≠ 0 := by
  have ht : a.testBit 7 = true := by
    rw [Nat.testBit_to_div_mod]
    norm_num
    omega
  have h3 := Nat.and_two_pow a 7
  rw [ht] at h3
  norm_num at h3
  omega

/-! ### `leVal` lemmas -/

theorem leVal_lt (bs : List Nat) (h : ∀ x ∈ bs, x < 256) :
    leVal bs < 256 ^ bs.length := by
  induction bs with
  | nil => simp [leVal]
  | cons b bs ih =>
    have hb : b < 256 := h b (by simp)
    have hrest := ih (fun x hx => h x (by simp [hx]))
    simp only [leVal, List.length_cons, pow_succ]
    omega

theorem leVal_append (xs : List Nat) (b : Nat) :
    leVal (xs ++ [b]) = leVal xs + 256 ^ xs.length * b := by
  induction xs with
  | nil => simp [leVal]
  | cons x xs ih =>
    rw [List.cons_append]
    simp only [leVal, List.length_cons, pow_succ]
    rw [ih]
    ring

/-! ### Claim C3: varint round trip -/

/-- C3: for every unsigned 64-bit value, decoding the encoder's output
yields the value back and consumes exactly the encoded length, which
equals `varint_get_length`, the minimal-form length (1 byte up to 252,
3 up to 0xFFFF, 5 up to 0xFFFFFFFF, 9 otherwise). -/
theorem claim_C3_varint_roundtrip (v : Nat) (hv : v < 2 ^ 64) :
    varint_from_bytes (varint_to_bytes v) = (v, (varint_to_bytes v).length) ∧
    (varint_to_bytes v).length = varint_get_length v ∧
    varint_get_length v =
      (if v ≤ 252 then 1 else if v ≤ 0xffff then 3
       else if v ≤ 0xffffffff then 5 else 9) := by
  by_cases h8 : v ≤ 252
  · have henc : varint_to_bytes v = [v] := by
      simp [varint_to_bytes, VI_MAX_8, h8, Nat.mod_eq_of_lt (show v < 256 by omega)]
    refine ⟨?_, ?_, ?_⟩
    · rw [henc]
      simp [varint_from_bytes, VI_TAG_16, VI_TAG_32, VI_TAG_64, List.getD,
        show v ≠ 253 by omega, show v ≠ 254 by omega, show v ≠ 255 by omega]
    · rw [henc]; simp [varint_get_length, VI_MAX_8, h8]
    · simp [varint_get_length, VI_MAX_8, VI_MAX_16, VI_MAX_32, h8]
  · by_cases h16 : v ≤ 65535
    · have henc : varint_to_bytes v = [253, v % 256, v / 2 ^ 8 % 256] := by
        simp [varint_to_bytes, VI_MAX_8, VI_MAX_16, VI_TAG_16,
          uint16_to_le_bytes, h8, h16]
      refine ⟨?_, ?_, ?_⟩
      · rw [henc]
        simp only [varint_from_bytes, vi_b, VI_TAG_16, VI_TAG_32, VI_TAG_64,
          List.getD_cons_zero, List.getD_cons_succ, reduceIte, Nat.reduceSub,
          Nat.reduceMul, Nat.reduceAdd, Nat.shiftLeft_zero, List.length_cons,
          List.length_nil, Prod.mk.injEq, and_true]
        rw [shiftLeft_lor_eq _ _ 8 (by omega)]
        omega
      · rw [henc]; simp [varint_get_length, VI_MAX_8, VI_MAX_16, h8, h16]
      · simp [varint_get_length, VI_MAX_8, VI_MAX_16, VI_MAX_32, h8, h16]
    · by_cases h32 : v ≤ 4294967295
      · have henc : varint_to_bytes v =
            [254, v % 256, v / 2 ^ 8 % 256, v / 2 ^ 16 % 256, v / 2 ^ 24 % 256] := by
          simp [varint_to_bytes, VI_MAX_8, VI_MAX_16, VI_MAX_32, VI_TAG_32,
            uint32_to_le_bytes, h8, h16, h32]
        refine ⟨?_, ?_, ?_⟩
        · rw [henc]
          simp only [varint_from_bytes, vi_b, VI_TAG_16, VI_TAG_32, VI_TAG_64,
            List.getD_cons_zero, List.getD_cons_succ,
            reduceIte, Nat.reduceSub, Nat.reduceMul,
            Nat.reduceAdd, Nat.shiftLeft_zero, List.length_cons, List.length_nil,
            Prod.mk.injEq, and_true]
          rw [if_neg (show ¬ (254 = 253) by norm_num),
            lor_eq_add_of_dvd _ _ 24
              (two_pow_dvd_shiftLeft _ 24 24 (le_refl 24))
              (shiftLeft_lt_of_lt _ 16 24 (by omega) (by norm_num)),
            lor_eq_add_of_dvd _ _ 16
              (dvd_add (two_pow_dvd_shiftLeft _ 24 16 (by norm_num))
                (two_pow_dvd_shiftLeft _ 16 16 (le_refl 16)))
              (shiftLeft_lt_of_lt _ 8 16 (by omega) (by norm_num)),
            lor_eq_add_of_dvd _ _ 8
              (dvd_add (dvd_add (two_pow_dvd_shiftLeft _ 24 8 (by norm_num))
                  (two_pow_dvd_shiftLeft _ 16 8 (by norm_num)))
                (two_pow_dvd_shiftLeft _ 8 8 (le_refl 8)))
              (by omega)]
          simp only [Nat.shiftLeft_eq, Prod.mk.injEq, and_true]
          omega
        · rw [henc]
          simp [varint_get_length, VI_MAX_8, VI_MAX_16, VI_MAX_32, h8, h16, h32]
        · simp [varint_get_length, VI_MAX_8, VI_MAX_16, VI_MAX_32, h8, h16, h32]
      · have henc : varint_to_bytes v =
            [255, v % 256, v / 2 ^ 8 % 256, v / 2 ^ 16 % 256, v / 2 ^ 24 % 256,
             v / 2 ^ 32 % 256, v / 2 ^ 40 % 256, v / 2 ^ 48 % 256, v / 2 ^ 56 % 256] := by
          simp [varint_to_bytes, VI_MAX_8, VI_MAX_16, VI_MAX_32, VI_TAG_64,
            uint64_to_le_bytes, h8, h16, h32]
        refine ⟨?_, ?_, ?_⟩
        · rw [henc]
          simp only [varint_from_bytes, vi_b, VI_TAG_16, VI_TAG_32, VI_TAG_64,
            List.getD_cons_zero, List.getD_cons_succ,
            reduceIte, Nat.reduceSub, Nat.reduceMul,
            Nat.reduceAdd, Nat.shiftLeft_zero, List.length_cons, List.length_nil,
            Prod.mk.injEq, and_true]
          rw [if_neg (show ¬ (255 = 253) by norm_num),
            if_neg (show ¬ (255 = 254) by norm_num),
            lor_eq_add_of_dvd _ _ 56
              (two_pow_dvd_shiftLeft _ 56 56 (le_refl 56))
              (shiftLeft_lt_of_lt _ 48 56 (by omega) (by norm_num)),
            lor_eq_add_of_dvd _ _ 48
              (dvd_add (two_pow_dvd_shiftLeft _ 56 48 (by norm_num))
                (two_pow_dvd_shiftLeft _ 48 48 (le_refl 48)))
              (shiftLeft_lt_of_lt _ 40 48 (by omega) (by norm_num)),
            lor_eq_add_of_dvd _ _ 40
              (dvd_add (dvd_add (two_pow_dvd_shiftLeft _ 56 40 (by norm_num))
                  (two_pow_dvd_shiftLeft _ 48 40 (by norm_num)))
                (two_pow_dvd_shiftLeft _ 40 40 (le_refl 40)))
              (shiftLeft_lt_of_lt _ 32 40 (by omega) (by norm_num)),
            lor_eq_add_of_dvd _ _ 32
              (dvd_add (dvd_add (dvd_add (two_pow_dvd_shiftLeft _ 56 32 (by norm_num))
                    (two_pow_dvd_shiftLeft _ 48 32 (by norm_num)))
                  (two_pow_dvd_shiftLeft _ 40 32 (by norm_num)))
                (two_pow_dvd_shiftLeft _ 32 32 (le_refl 32)))
              (shiftLeft_lt_of_lt _ 24 32 (by omega) (by norm_num)),
            lor_eq_add_of_dvd _ _ 24
              (dvd_add (dvd_add (dvd_add (dvd_add
                      (two_pow_dvd_shiftLeft _ 56 24 (by norm_num))
                      (two_pow_dvd_shiftLeft _ 48 24 (by norm_num)))
                    (two_pow_dvd_shiftLeft _ 40 24 (by norm_num)))
                  (two_pow_dvd_shiftLeft _ 32 24 (by norm_num)))
                (two_pow_dvd_shiftLeft _ 24 24 (le_refl 24)))
              (shiftLeft_lt_of_lt _ 16 24 (by omega) (by norm_num)),
            lor_eq_add_of_dvd _ _ 16
              (dvd_add (dvd_add (dvd_add (dvd_add (dvd_add
                        (two_pow_dvd_shiftLeft _ 56 16 (by norm_num))
                        (two_pow_dvd_shiftLeft _ 48 16 (by norm_num)))
                      (two_pow_dvd_shiftLeft _ 40 16 (by norm_num)))
                    (two_pow_dvd_shiftLeft _ 32 16 (by norm_num)))
                  (two_pow_dvd_shiftLeft _ 24 16 (by norm_num)))
                (two_pow_dvd_shiftLeft _ 16 16 (le_refl 16)))
              (shiftLeft_lt_of_lt _ 8 16 (by omega) (by norm_num)),
            lor_eq_add_of_dvd _ _ 8
              (dvd_add (dvd_add (dvd_add (dvd_add (dvd_add (dvd_add
                          (two_pow_dvd_shiftLeft _ 56 8 (by norm_num))
                          (two_pow_dvd_shiftLeft _ 48 8 (by norm_num)))
                        (two_pow_dvd_shiftLeft _ 40 8 (by norm_num)))
                      (two_pow_dvd_shiftLeft _ 32 8 (by norm_num)))
                    (two_pow_dvd_shiftLeft _ 24 8 (by norm_num)))
                  (two_pow_dvd_shiftLeft _ 16 8 (by norm_num)))
                (two_pow_dvd_shiftLeft _ 8 8 (le_refl 8)))
              (by omega)]
          simp only [Nat.shiftLeft_eq, Prod.mk.injEq, and_true]
          omega
        · rw [henc]
          simp [varint_get_length, VI_MAX_8, VI_MAX_16, VI_MAX_32, h8, h16, h32]
        · simp [varint_get_length, VI_MAX_8, VI_MAX_16, VI_MAX_32, h8, h16, h32]

/-- Witness for C3 at a concrete input. -/
theorem claim_C3_varint_roundtrip_witness :
    (70000 : Nat) < 2 ^ 64 ∧
    varint_from_bytes (varint_to_bytes 70000) = (70000, (varint_to_bytes 70000).length) := by
  refine ⟨by norm_num, (claim_C3_varint_roundtrip 70000 (by norm_num)).1⟩

/-! ### scriptint lemmas -/

theorem scriptintBytes_eq_nil : scriptintBytes 0 = [] := by
  simp [scriptintBytes]

theorem scriptintBytes_cons (v : Nat) (h : v ≠ 0) :
    scriptintBytes v = v % 256 :: scriptintBytes (v / 256) := by
  rw [scriptintBytes]
  simp [h]

theorem leVal_scriptintBytes (v : Nat) : leVal (scriptintBytes v) = v := by
  induction v using Nat.strong_induction_on with
  | _ v ih =>
    by_cases h : v = 0
    · subst h; simp [scriptintBytes_eq_nil, leVal]
    · rw [scriptintBytes_cons v h]
      simp only [leVal]
      rw [ih (v / 256) (Nat.div_lt_self (Nat.pos_of_ne_zero h) (by norm_num))]
      omega

theorem scriptintBytes_bytes_lt (v : Nat) : ∀ x ∈ scriptintBytes v, x < 256 := by
  induction v using Nat.strong_induction_on with
  | _ v ih =>
    by_cases h : v = 0
    · subst h; simp [scriptintBytes_eq_nil]
    · rw [scriptintBytes_cons v h]
      intro x hx
      rcases List.mem_cons.mp hx with h1 | h1
      · subst h1; exact Nat.mod_lt _ (by norm_num)
      · exact ih (v / 256) (Nat.div_lt_self (Nat.pos_of_ne_zero h) (by norm_num)) x h1

theorem scriptintBytes_length_le (n : Nat) :
    ∀ v, v < 2 ^ (8 * n) → (scriptintBytes v).length ≤ n := by
  induction n with
  | zero =>
    intro v hv
    have h0 : v = 0 := by simpa using hv
    subst h0
    simp [scriptintBytes_eq_nil]
  | succ n ih =>
    intro v hv
    by_cases h : v = 0
    · subst h; simp [scriptintBytes_eq_nil]
    · rw [scriptintBytes_cons v h]
      simp only [List.length_cons]
      have hv' : v / 256 < 2 ^ (8 * n) := by
        rw [Nat.div_lt_iff_lt_mul (by norm_num : (0:Nat) < 256)]
        calc v < 2 ^ (8 * (n + 1)) := hv
          _ = 2 ^ (8 * n) * 256 := by
              rw [show 8 * (n + 1) = 8 * n + 8 by ring, pow_add]; norm_num
      have := ih (v / 256) hv'
      omega

theorem scriptintBytes_self_lt (v : Nat) :
    v < 2 ^ (8 * (scriptintBytes v).length) := by
  have h1 := leVal_lt (scriptintBytes v) (scriptintBytes_bytes_lt v)
  rw [leVal_scriptintBytes] at h1
  calc v < 256 ^ (scriptintBytes v).length := h1
    _ = 2 ^ (8 * (scriptintBytes v).length) := by
        rw [show (256 : Nat) = 2 ^ 8 from rfl, ← pow_mul]

theorem pow256_eq (k : Nat) : (256 : Nat) ^ k = 2 ^ (8 * k) := by
  rw [show (256 : Nat) = 2 ^ 8 from rfl, ← pow_mul]

theorem scriptintOrLoop_eq (cnt : Nat) (data : List Nat) (n : Nat)
    (hn : n ≤ data.length) (hlt : ∀ x ∈ data, x < 256) :
    scriptintOrLoop (cnt :: data) n = leVal (data.take n) := by
  induction n with
  | zero => simp [scriptintOrLoop, leVal]
  | succ n ih =>
    have h1 : scriptintOrLoop (cnt :: data) (n + 1) =
        scriptintOrLoop (cnt :: data) n |||
          ((cnt :: data).getD (n + 1 + 1 - 1) 0 <<< (8 * n)) := by
      simp [scriptintOrLoop, List.range_succ]
    rw [show (n + 1 + 1 - 1) = n + 1 by omega] at h1
    rw [h1, ih (by omega), List.getD_cons_succ]
    have hbound : leVal (data.take n) < 2 ^ (8 * n) := by
      have h2 := leVal_lt (data.take n) (fun x hx => hlt x (List.mem_of_mem_take hx))
      have hlen : (data.take n).length = n := by
        simp only [List.length_take]
        omega
      rw [hlen, pow256_eq] at h2
      exact h2
    rw [Nat.lor_comm, shiftLeft_lor_eq _ _ _ hbound]
    have hget : data[n]? = some data[n] := List.getElem?_eq_getElem (by omega)
    have hdn : data.getD n 0 = data[n] := List.getD_eq_getElem data 0 (by omega)
    rw [List.take_succ, hget]
    simp only [Option.toList_some]
    rw [leVal_append, hdn]
    have hlen : (data.take n).length = n := by
      simp only [List.length_take]; omega
    rw [hlen, pow256_eq]
    ring

/-- Decoding a count-prefixed byte buffer of at most 4 data bytes:
the C loop reconstructs the little-endian value, then interprets the
top bit of the last data byte. -/
theorem scriptint_decode_core (data : List Nat) (hlt : ∀ x ∈ data, x < 256)
    (hn4 : data.length ≤ 4) :
    scriptint_from_bytes (data.length :: data) (data.length + 1) =
      (if data.getD (data.length - 1) 0 &&& 128 ≠ 0 then
        some (-((leVal data ^^^ ((128 <<< (8 * data.length)) >>> 8) : Nat) : Int))
      else some ((leVal data : Nat) : Int)) := by
  have hsign : (data.length :: data).getD data.length 0 = data.getD (data.length - 1) 0 := by
    cases data with
    | nil => simp
    | cons x xs => simp [List.getD_cons_succ]
  have hacc : scriptintOrLoop (data.length :: data) data.length = leVal data := by
    rw [scriptintOrLoop_eq _ _ data.length (le_refl _) hlt, List.take_length]
  simp only [scriptint_from_bytes, List.getD_cons_zero]
  rw [if_neg (by omega : ¬(data.length + 1 < 1 ∨
    data.length + 1 ≤ data.length ∨ data.length > 4))]
  rw [hacc, hsign]

theorem mask_shift (n : Nat) (h : 1 ≤ n) :
    (128 <<< (8 * n)) >>> 8 = 2 ^ (8 * n - 1) := by
  rw [Nat.shiftLeft_eq, Nat.shiftRight_eq_div_pow]
  have h1 : (128 : Nat) * 2 ^ (8 * n) = 2 ^ (8 * n - 1) * 2 ^ 8 := by
    rw [show (128 : Nat) = 2 ^ 7 from rfl, ← pow_add, ← pow_add]
    congr 1
    omega
  rw [h1, Nat.mul_div_cancel _ (by positivity)]

/-! ### Claim C4: scriptint round trip -/

/-- C4: for every signed value with magnitude below 2^31, decoding the
script-integer encoding (the encoder's output presented to the decoder
behind its count byte, with its length) yields the value back;
encoding 0 produces no bytes, 128 produces [0x80, 0x00] and -128
produces [0x80, 0x80]. -/
theorem claim_C4_scriptint_roundtrip (sv : Int) (h : sv.natAbs < 2 ^ 31) :
    scriptint_from_bytes
        ((scriptint_to_bytes sv).length :: scriptint_to_bytes sv)
        ((scriptint_to_bytes sv).length + 1) = some sv ∧
    scriptint_to_bytes 0 = [] ∧
    scriptint_to_bytes 128 = [128, 0] ∧
    scriptint_to_bytes (-128) = [128, 128] := by
  have h128bs : scriptintBytes 128 = [128] := by
    rw [scriptintBytes_cons 128 (by norm_num)]
    norm_num [scriptintBytes_eq_nil]
  have main : scriptint_from_bytes
      ((scriptint_to_bytes sv).length :: scriptint_to_bytes sv)
      ((scriptint_to_bytes sv).length + 1) = some sv := by
    by_cases hm0 : sv.natAbs = 0
    · have hsv0 : sv = 0 := by omega
      subst hsv0
      have henc : scriptint_to_bytes 0 = [] := by
        simp [scriptint_to_bytes, scriptintBytes_eq_nil]
      rw [henc]
      have hcore := scriptint_decode_core [] (by simp) (by simp)
      simp only [List.length_nil] at hcore ⊢
      rw [hcore]
      simp [leVal]
    · obtain ⟨ys, b, hbs⟩ : ∃ ys b, scriptintBytes sv.natAbs = ys ++ [b] := by
        rcases List.eq_nil_or_concat (scriptintBytes sv.natAbs) with hnil | ⟨ys, b, hcat⟩
        · exfalso
          have hv := leVal_scriptintBytes sv.natAbs
          rw [hnil] at hv
          simp [leVal] at hv
          omega
        · exact ⟨ys, b, by rw [hcat]; simp⟩
      have hblt : b < 256 := scriptintBytes_bytes_lt _ b (by rw [hbs]; simp)
      have hyslt : ∀ x ∈ ys, x < 256 := fun x hx =>
        scriptintBytes_bytes_lt _ x (by rw [hbs]; simp [hx])
      have hleval : leVal ys + 256 ^ ys.length * b = sv.natAbs := by
        have h2 := leVal_scriptintBytes sv.natAbs
        rw [hbs, leVal_append] at h2
        exact h2
      have hysbound : leVal ys < 256 ^ ys.length := leVal_lt ys hyslt
      have hlen4 : ys.length + 1 ≤ 4 := by
        have h3 := scriptintBytes_length_le 4 sv.natAbs (by norm_num; omega)
        rw [hbs] at h3
        simpa using h3
      have hgl : (scriptintBytes sv.natAbs).getLastD 0 = b := by
        rw [hbs]; exact List.getLastD_concat _ _ _
      have hdl : (scriptintBytes sv.natAbs).dropLast = ys := by
        rw [hbs]; exact List.dropLast_concat
      rcases Nat.lt_or_ge b 128 with hb | hb
      · have hand : b &&& 128 = 0 := and_128_eq_zero hb
        by_cases hneg : sv < 0
        · have h4 : (128 : Nat) ||| b = 128 + b := by
            have h5 := shiftLeft_lor_eq 1 b 7 (by omega)
            rw [Nat.shiftLeft_eq] at h5
            norm_num at h5
            exact h5
          have hbor : b ||| 128 = b + 128 := by
            rw [Nat.lor_comm, h4]
            omega
          have henc : scriptint_to_bytes sv = ys ++ [b + 128] := by
            simp only [scriptint_to_bytes]
            rw [hgl, hdl]
            rw [if_neg (by simp [hand])]
            rw [if_pos hneg, hbor]
          rw [henc]
          rw [scriptint_decode_core (ys ++ [b + 128])
            (by
              intro x hx
              rcases List.mem_append.mp hx with h1 | h1
              · exact hyslt x h1
              · simp at h1; omega)
            (by simp; omega)]
          have hlast : (ys ++ [b + 128]).getD ((ys ++ [b + 128]).length - 1) 0 = b + 128 := by
            rw [List.length_append]
            simp only [List.length_cons, List.length_nil]
            rw [show ys.length + (0 + 1) - 1 = ys.length by omega]
            rw [List.getD_append_right _ _ _ _ (le_refl _)]
            simp
          rw [hlast, if_pos (and_128_ne_zero (by omega) (by omega))]
          have h6 : (256 : Nat) ^ ys.length * 128 = 2 ^ (8 * (ys.length + 1) - 1) := by
            rw [pow256_eq, show (128 : Nat) = 2 ^ 7 from rfl, ← pow_add]
            congr 1
          have hlv : leVal (ys ++ [b + 128]) =
              sv.natAbs + 2 ^ (8 * (ys.length + 1) - 1) := by
            rw [leVal_append]
            have h7 : 256 ^ ys.length * (b + 128) =
                256 ^ ys.length * b + 256 ^ ys.length * 128 := by ring
            omega
          have hlen : (ys ++ [b + 128]).length = ys.length + 1 := by simp
          rw [hlen, hlv, mask_shift _ (by omega)]
          have hmlt : sv.natAbs < 2 ^ (8 * (ys.length + 1) - 1) := by
            have h8 : leVal ys + 256 ^ ys.length * b < 256 ^ ys.length * 128 := by
              have h9 : 256 ^ ys.length * b + 256 ^ ys.length ≤ 256 ^ ys.length * 128 := by
                calc 256 ^ ys.length * b + 256 ^ ys.length
                    = 256 ^ ys.length * (b + 1) := by ring
                  _ ≤ 256 ^ ys.length * 128 := Nat.mul_le_mul_left _ (by omega)
              omega
            omega
          rw [add_two_pow_xor _ _ hmlt]
          congr 1
          omega
        · have henc : scriptint_to_bytes sv = ys ++ [b] := by
            simp only [scriptint_to_bytes]
            rw [hgl]
            rw [if_neg (by simp [hand])]
            rw [if_neg hneg, hbs]
          rw [henc]
          rw [scriptint_decode_core (ys ++ [b])
            (by
              intro x hx
              rcases List.mem_append.mp hx with h1 | h1
              · exact hyslt x h1
              · simp at h1; omega)
            (by simp; omega)]
          have hlast : (ys ++ [b]).getD ((ys ++ [b]).length - 1) 0 = b := by
            rw [List.length_append]
            simp only [List.length_cons, List.length_nil]
            rw [show ys.length + (0 + 1) - 1 = ys.length by omega]
            rw [List.getD_append_right _ _ _ _ (le_refl _)]
            simp
          rw [hlast, if_neg (by simp [hand])]
          have hlv : leVal (ys ++ [b]) = sv.natAbs := by
            rw [leVal_append]; exact hleval
          rw [hlv]
          congr 1
          omega
      · have hand : b &&& 128 ≠ 0 := and_128_ne_zero hb hblt
        have hys2 : ys.length ≤ 2 := by
          by_contra hc
          push_neg at hc
          have h8 : (256 : Nat) ^ 3 ≤ 256 ^ ys.length :=
            Nat.pow_le_pow_right (by norm_num) hc
          have h9 : 256 ^ ys.length * 128 ≤ 256 ^ ys.length * b :=
            Nat.mul_le_mul_left _ hb
          have h10 : (2 : Nat) ^ 31 ≤ sv.natAbs := by
            calc (2 : Nat) ^ 31 = 256 ^ 3 * 128 := by norm_num
              _ ≤ 256 ^ ys.length * 128 := Nat.mul_le_mul_right _ h8
              _ ≤ 256 ^ ys.length * b := h9
              _ ≤ leVal ys + 256 ^ ys.length * b := by omega
              _ = sv.natAbs := hleval
          omega
        have henc : scriptint_to_bytes sv =
            (ys ++ [b]) ++ [if sv < 0 then 128 else 0] := by
          simp only [scriptint_to_bytes]
          rw [hgl, if_pos hand, hbs]
        rw [henc]
        rw [scriptint_decode_core ((ys ++ [b]) ++ [if sv < 0 then 128 else 0])
          (by
            intro x hx
            rcases List.mem_append.mp hx with h1 | h1
            · rcases List.mem_append.mp h1 with h2 | h2
              · exact hyslt x h2
              · simp at h2; omega
            · simp at h1; split at h1 <;> omega)
          (by simp; omega)]
        have hlast : ((ys ++ [b]) ++ [if sv < 0 then 128 else 0]).getD
            (((ys ++ [b]) ++ [if sv < 0 then 128 else 0]).length - 1) 0 =
            (if sv < 0 then 128 else 0) := by
          rw [List.length_append (ys ++ [b])]
          simp only [List.length_cons, List.length_nil]
          rw [show (ys ++ [b]).length + (0 + 1) - 1 = (ys ++ [b]).length by omega]
          rw [List.getD_append_right _ _ _ _ (le_refl _)]
          simp
        rw [hlast]
        have hlvfull : leVal ((ys ++ [b]) ++ [if sv < 0 then 128 else 0]) =
            sv.natAbs + 256 ^ (ys.length + 1) * (if sv < 0 then 128 else 0) := by
          rw [leVal_append, leVal_append, hleval]
          simp
        have hlenfull : ((ys ++ [b]) ++ [if sv < 0 then 128 else 0]).length =
            ys.length + 2 := by simp
        by_cases hneg : sv < 0
        · rw [if_pos (by rw [if_pos hneg]; decide)]
          rw [hlvfull, hlenfull, if_pos hneg, mask_shift _ (by omega)]
          have h11 : (256 : Nat) ^ (ys.length + 1) * 128 =
              2 ^ (8 * (ys.length + 2) - 1) := by
            rw [pow256_eq, show (128 : Nat) = 2 ^ 7 from rfl, ← pow_add]
            congr 1
          have hmlt : sv.natAbs < 2 ^ (8 * (ys.length + 2) - 1) := by
            have h12 := scriptintBytes_self_lt sv.natAbs
            rw [hbs] at h12
            simp only [List.length_append, List.length_cons, List.length_nil] at h12
            have h13 : (2 : Nat) ^ (8 * (ys.length + (0 + 1))) ≤
                2 ^ (8 * (ys.length + 2) - 1) :=
              Nat.pow_le_pow_right (by norm_num) (by omega)
            omega
          rw [h11, add_two_pow_xor _ _ hmlt]
          congr 1
          omega
        · rw [if_neg (by rw [if_neg hneg]; decide)]
          rw [hlvfull, if_neg hneg]
          norm_num
          omega
  refine ⟨main, ?_, ?_, ?_⟩
  · simp [scriptint_to_bytes, scriptintBytes_eq_nil]
  · simp [scriptint_to_bytes, h128bs]
  · simp [scriptint_to_bytes, h128bs]

/-- Witness for C4 at a concrete input. -/
theorem claim_C4_scriptint_roundtrip_witness :
    ((-300 : Int).natAbs < 2 ^ 31) ∧
    scriptint_from_bytes
        ((scriptint_to_bytes (-300)).length :: scriptint_to_bytes (-300))
        ((scriptint_to_bytes (-300)).length + 1) = some (-300) :=
  ⟨by norm_num, (claim_C4_scriptint_roundtrip (-300) (by norm_num)).1⟩

/-! ### Claims C8 and C10: confidential commitment lengths -/

/-- C8: for a non-empty buffer the commitment-length classifier returns
1 on a zero leading byte; on the explicit marker byte the value
specialization returns 9 and the asset/nonce ones 33; on either
field-specific blinded prefix byte it returns 33; any other leading
byte returns 0. -/
theorem claim_C8_commitment_lengths (bs : List Nat) (hne : bs.length ≠ 0) :
    (bs.getD 0 0 = 0 →
      confidential_asset_length_from_bytes (some bs) = 1 ∧
      confidential_value_length_from_bytes (some bs) = 1 ∧
      confidential_nonce_length_from_bytes (some bs) = 1) ∧
    (bs.getD 0 0 = WALLY_TX_ASSET_CT_EXPLICIT_PREFIX →
      confidential_value_length_from_bytes (some bs) = 9 ∧
      confidential_asset_length_from_bytes (some bs) = 33 ∧
      confidential_nonce_length_from_bytes (some bs) = 33) ∧
    ((bs.getD 0 0 = WALLY_TX_ASSET_CT_VALUE_PREFIX_A ∨
      bs.getD 0 0 = WALLY_TX_ASSET_CT_VALUE_PREFIX_B) →
      confidential_value_length_from_bytes (some bs) = 33) ∧
    ((bs.getD 0 0 = WALLY_TX_ASSET_CT_ASSET_PREFIX_A ∨
      bs.getD 0 0 = WALLY_TX_ASSET_CT_ASSET_PREFIX_B) →
      confidential_asset_length_from_bytes (some bs) = 33) ∧
    ((bs.getD 0 0 = WALLY_TX_ASSET_CT_NONCE_PREFIX_A ∨
      bs.getD 0 0 = WALLY_TX_ASSET_CT_NONCE_PREFIX_B) →
      confidential_nonce_length_from_bytes (some bs) = 33) ∧
    (bs.getD 0 0 ≠ 0 → bs.getD 0 0 ≠ WALLY_TX_ASSET_CT_EXPLICIT_PREFIX →
      bs.getD 0 0 ≠ WALLY_TX_ASSET_CT_VALUE_PREFIX_A →
      bs.getD 0 0 ≠ WALLY_TX_ASSET_CT_VALUE_PREFIX_B →
      confidential_value_length_from_bytes (some bs) = 0) ∧
    (bs.getD 0 0 ≠ 0 → bs.getD 0 0 ≠ WALLY_TX_ASSET_CT_EXPLICIT_PREFIX →
      bs.getD 0 0 ≠ WALLY_TX_ASSET_CT_ASSET_PREFIX_A →
      bs.getD 0 0 ≠ WALLY_TX_ASSET_CT_ASSET_PREFIX_B →
      confidential_asset_length_from_bytes (some bs) = 0) ∧
    (bs.getD 0 0 ≠ 0 → bs.getD 0 0 ≠ WALLY_TX_ASSET_CT_EXPLICIT_PREFIX →
      bs.getD 0 0 ≠ WALLY_TX_ASSET_CT_NONCE_PREFIX_A →
      bs.getD 0 0 ≠ WALLY_TX_ASSET_CT_NONCE_PREFIX_B →
      confidential_nonce_length_from_bytes (some bs) = 0) := by
  refine ⟨?_, ?_, ?_, ?_, ?_, ?_, ?_, ?_⟩ <;>
    simp only [confidential_asset_length_from_bytes,
      confidential_value_length_from_bytes, confidential_nonce_length_from_bytes,
      get_commitment_len, WALLY_TX_ASSET_CT_EXPLICIT_PREFIX,
      WALLY_TX_ASSET_CT_VALUE_PREFIX_A, WALLY_TX_ASSET_CT_VALUE_PREFIX_B,
      WALLY_TX_ASSET_CT_ASSET_PREFIX_A, WALLY_TX_ASSET_CT_ASSET_PREFIX_B,
      WALLY_TX_ASSET_CT_NONCE_PREFIX_A, WALLY_TX_ASSET_CT_NONCE_PREFIX_B,
      WALLY_TX_ASSET_CT_VALUE_UNBLIND_LEN, WALLY_TX_ASSET_CT_LEN]
  · intro h; rw [List.getD_eq_getElem?_getD] at h; simp [h]
  · intro h; rw [List.getD_eq_getElem?_getD] at h; simp [h]
  · intro h; rcases h with h | h <;> rw [List.getD_eq_getElem?_getD] at h <;> simp [h]
  · intro h; rcases h with h | h <;> rw [List.getD_eq_getElem?_getD] at h <;> simp [h]
  · intro h; rcases h with h | h <;> rw [List.getD_eq_getElem?_getD] at h <;> simp [h]
  · intro h0 h1 h8 h9
    rw [List.getD_eq_getElem?_getD] at h0 h1 h8 h9
    simp [h0, h1, h8, h9]
  · intro h0 h1 h10 h11
    rw [List.getD_eq_getElem?_getD] at h0 h1 h10 h11
    simp [h0, h1, h10, h11]
  · intro h0 h1 h2 h3
    rw [List.getD_eq_getElem?_getD] at h0 h1 h2 h3
    simp [h0, h1, h2, h3]

/-- Witness for C8 at a concrete input. -/
theorem claim_C8_commitment_lengths_witness :
    ([10, 5].length ≠ 0) ∧ confidential_asset_length_from_bytes (some [10, 5]) = 33 :=
  ⟨by decide, (claim_C8_commitment_lengths [10, 5] (by decide)).2.2.2.1 (Or.inl (by decide))⟩

/-- C10: each public commitment-length accessor returns the 1-byte
null-commitment length for a NULL bytes pointer, exactly as for a zero
leading byte. -/
theorem claim_C10_null_pointer_commitment :
    confidential_asset_length_from_bytes none = 1 ∧
    confidential_value_length_from_bytes none = 1 ∧
    confidential_nonce_length_from_bytes none = 1 ∧
    ∀ rest : List Nat,
      confidential_asset_length_from_bytes (some (0 :: rest)) = 1 ∧
      confidential_value_length_from_bytes (some (0 :: rest)) = 1 ∧
      confidential_nonce_length_from_bytes (some (0 :: rest)) = 1 := by
  refine ⟨rfl, rfl, rfl, ?_⟩
  intro rest
  refine ⟨?_, ?_, ?_⟩ <;>
    simp [confidential_asset_length_from_bytes, confidential_value_length_from_bytes,
      confidential_nonce_length_from_bytes, get_commitment_len]

/-- Witness for C10 at a concrete input. -/
theorem claim_C10_null_pointer_commitment_witness :
    confidential_asset_length_from_bytes (some [0, 9, 9]) = 1 :=
  ((claim_C10_null_pointer_commitment).2.2.2 [9, 9]).1

/-! ### Claim C7: P2PKH classification and opcode flips -/

theorem is_op_return_iff (L : List Nat) :
    scriptpubkey_is_op_return L = true ↔
      (L.length ≠ 0 ∧ L.getD 0 0 = OP_RETURN) := by
  simp [scriptpubkey_is_op_return]

theorem is_p2pkh_iff (L : List Nat) :
    scriptpubkey_is_p2pkh L = true ↔
      (L.length = 25 ∧ L.getD 0 0 = OP_DUP ∧ L.getD 1 0 = OP_HASH160 ∧
       L.getD 2 0 = 20 ∧ L.getD 23 0 = OP_EQUALVERIFY ∧ L.getD 24 0 = OP_CHECKSIG) := by
  simp [scriptpubkey_is_p2pkh, WALLY_SCRIPTPUBKEY_P2PKH_LEN]

/-- On a 25-byte buffer the classifier reduces to the OP_RETURN check
followed by the P2PKH template check: the multisig and CSV matchers
need at least 37 and 79 bytes. -/
theorem get_type_len25 (L : List Nat) (hL : L.length = 25) :
    wally_scriptpubkey_get_type L =
      if L.getD 0 0 = OP_RETURN then some WALLY_SCRIPT_TYPE_OP_RETURN
      else if scriptpubkey_is_p2pkh L then some WALLY_SCRIPT_TYPE_P2PKH
      else some WALLY_SCRIPT_TYPE_UNKNOWN := by
  have hmul : scriptpubkey_is_multisig L = false := by
    unfold scriptpubkey_is_multisig
    rw [if_pos (by omega)]
  have hcsv : scriptpubkey_is_csv_2of2_then_1 L = none := by
    unfold scriptpubkey_is_csv_2of2_then_1
    rw [if_pos (by simp only [EC_PUBLIC_KEY_LEN]; omega)]
  have hcsvopt : scriptpubkey_is_csv_2of2_then_1_opt L = none := by
    unfold scriptpubkey_is_csv_2of2_then_1_opt
    rw [if_pos (by simp only [EC_PUBLIC_KEY_LEN]; omega)]
  unfold wally_scriptpubkey_get_type
  rw [if_neg (by omega), hmul, hcsv, hcsvopt]
  by_cases hor : L.getD 0 0 = OP_RETURN
  · rw [if_pos ((is_op_return_iff L).mpr ⟨by omega, hor⟩), if_pos hor]
  · rw [if_neg (fun hh => hor ((is_op_return_iff L).mp hh).2), if_neg hor]
    simp only [Bool.false_eq_true, if_false]
    rw [if_pos (by simp [hL, WALLY_SCRIPTPUBKEY_P2PKH_LEN])]

/-- C7 amended: a 25-byte buffer of the form
OP_DUP OP_HASH160 0x14 (20 bytes) OP_EQUALVERIFY OP_CHECKSIG classifies
as P2PKH; replacing any one of the five template bytes with a different
byte yields Unknown, except that replacing the first byte with
OP_RETURN yields the OpReturn tag (the OP_RETURN check runs first). -/
theorem claim_C7_p2pkh_classifier (h : List Nat) (hlen : h.length = 20) :
    wally_scriptpubkey_get_type
      ([OP_DUP, OP_HASH160, 20] ++ h ++ [OP_EQUALVERIFY, OP_CHECKSIG]) =
      some WALLY_SCRIPT_TYPE_P2PKH ∧
    (∀ p ∈ [0, 1, 2, 23, 24], ∀ c : Nat,
      c ≠ ([OP_DUP, OP_HASH160, 20] ++ h ++ [OP_EQUALVERIFY, OP_CHECKSIG]).getD p 0 →
      wally_scriptpubkey_get_type
        (([OP_DUP, OP_HASH160, 20] ++ h ++ [OP_EQUALVERIFY, OP_CHECKSIG]).set p c) =
        some (if p = 0 ∧ c = OP_RETURN then WALLY_SCRIPT_TYPE_OP_RETURN
          else WALLY_SCRIPT_TYPE_UNKNOWN)) := by
  have hS : ([OP_DUP, OP_HASH160, 20] ++ h ++ [OP_EQUALVERIFY, OP_CHECKSIG]) =
      OP_DUP :: OP_HASH160 :: 20 :: (h ++ [OP_EQUALVERIFY, OP_CHECKSIG]) := by
    simp
  have h23 : ∀ c2 : Nat,
      (OP_DUP :: OP_HASH160 :: c2 :: (h ++ [OP_EQUALVERIFY, OP_CHECKSIG])).getD 23 0 =
      OP_EQUALVERIFY := by
    intro c2
    simp only [List.getD_cons_succ]
    rw [List.getD_append_right _ _ _ _ (by omega)]
    simp [hlen]
  have h24 : ∀ c2 : Nat,
      (OP_DUP :: OP_HASH160 :: c2 :: (h ++ [OP_EQUALVERIFY, OP_CHECKSIG])).getD 24 0 =
      OP_CHECKSIG := by
    intro c2
    simp only [List.getD_cons_succ]
    rw [List.getD_append_right _ _ _ _ (by omega)]
    simp [hlen]
  constructor
  · rw [get_type_len25 _ (by simp [hlen]), hS]
    rw [if_neg (by simp [OP_DUP, OP_RETURN])]
    rw [if_pos ((is_p2pkh_iff _).mpr
      ⟨by simp [hlen], by simp, by simp, by simp, h23 20, h24 20⟩)]
  · intro p hp c hc
    fin_cases hp
    · rw [hS] at hc ⊢
      simp only [List.getD_cons_zero] at hc
      rw [List.set_cons_zero]
      rw [get_type_len25 _ (by simp [hlen])]
      by_cases hcr : c = OP_RETURN
      · rw [if_pos (by simp [hcr])]
        simp [hcr]
      · rw [if_neg (by simp [hcr])]
        rw [if_neg (fun hh => by
          have h5 := ((is_p2pkh_iff _).mp hh).2.1
          simp only [List.getD_cons_zero] at h5
          exact hc h5)]
        simp [hcr]
    · rw [hS] at hc ⊢
      simp only [List.getD_cons_succ, List.getD_cons_zero] at hc
      rw [List.set_cons_succ, List.set_cons_zero]
      rw [get_type_len25 _ (by simp [hlen])]
      rw [if_neg (by simp [OP_DUP, OP_RETURN])]
      rw [if_neg (fun hh => by
        have h5 := ((is_p2pkh_iff _).mp hh).2.2.1
        simp only [List.getD_cons_succ, List.getD_cons_zero] at h5
        exact hc h5)]
      simp
    · rw [hS] at hc ⊢
      simp only [List.getD_cons_succ, List.getD_cons_zero] at hc
      rw [List.set_cons_succ, List.set_cons_succ, List.set_cons_zero]
      rw [get_type_len25 _ (by simp [hlen])]
      rw [if_neg (by simp [OP_DUP, OP_RETURN])]
      rw [if_neg (fun hh => by
        have h5 := ((is_p2pkh_iff _).mp hh).2.2.2.1
        simp only [List.getD_cons_succ, List.getD_cons_zero] at h5
        exact hc h5)]
      simp
    · rw [hS] at hc ⊢
      rw [h23 20] at hc
      rw [List.set_cons_succ, List.set_cons_succ, List.set_cons_succ,
        List.set_append, if_neg (by omega)]
      have hset2 : ([OP_EQUALVERIFY, OP_CHECKSIG].set (20 - h.length) c) =
          [c, OP_CHECKSIG] := by
        rw [hlen]
        simp
      rw [hset2]
      rw [get_type_len25 _ (by simp [hlen])]
      rw [if_neg (by simp [OP_DUP, OP_RETURN])]
      rw [if_neg (fun hh => by
        have h5 := ((is_p2pkh_iff _).mp hh).2.2.2.2.1
        simp only [List.getD_cons_succ] at h5
        rw [List.getD_append_right _ _ _ _ (by omega)] at h5
        simp [hlen] at h5
        exact hc h5)]
      simp
    · rw [hS] at hc ⊢
      rw [h24 20] at hc
      rw [List.set_cons_succ, List.set_cons_succ, List.set_cons_succ,
        List.set_append, if_neg (by omega)]
      have hset2 : ([OP_EQUALVERIFY, OP_CHECKSIG].set (21 - h.length) c) =
          [OP_EQUALVERIFY, c] := by
        rw [hlen]
        simp
      rw [hset2]
      rw [get_type_len25 _ (by simp [hlen])]
      rw [if_neg (by simp [OP_DUP, OP_RETURN])]
      rw [if_neg (fun hh => by
        have h5 := ((is_p2pkh_iff _).mp hh).2.2.2.2.2
        simp only [List.getD_cons_succ] at h5
        rw [List.getD_append_right _ _ _ _ (by omega)] at h5
        simp [hlen] at h5
        exact hc h5)]
      simp

/-- C7 as frozen is false: flipping the first opcode byte of a valid
P2PKH script to OP_RETURN makes the classifier return the OpReturn tag,
not Unknown. -/
theorem claim_C7_counterexample :
    wally_scriptpubkey_get_type
      ([OP_RETURN, OP_HASH160, 20] ++ List.replicate 20 0 ++ [OP_EQUALVERIFY, OP_CHECKSIG]) =
      some WALLY_SCRIPT_TYPE_OP_RETURN ∧
    OP_RETURN ≠ OP_DUP ∧
    (some WALLY_SCRIPT_TYPE_OP_RETURN ≠ some WALLY_SCRIPT_TYPE_UNKNOWN) := by
  refine ⟨?_, by decide, by decide⟩
  rw [get_type_len25 _ (by simp)]
  rw [if_pos (by simp [OP_RETURN])]

/-- Witness for C7 (amended) at a concrete input. -/
theorem claim_C7_p2pkh_classifier_witness :
    wally_scriptpubkey_get_type
      ([OP_DUP, OP_HASH160, 20] ++ List.replicate 20 7 ++ [OP_EQUALVERIFY, OP_CHECKSIG]) =
      some WALLY_SCRIPT_TYPE_P2PKH :=
  (claim_C7_p2pkh_classifier (List.replicate 20 7) (by simp)).1

/-! ### Claim C9: multisig recognition ignores the threshold/count order -/

theorem get_push_size_direct (L : List Nat) (b : Nat) (hb : L.getD 0 0 = b)
    (hlt : b < 76) (hlen : 1 + b ≤ L.length) :
    get_push_size L true = some 1 ∧ get_push_size L false = some b := by
  constructor <;>
  · simp only [get_push_size, hb]
    rw [if_neg (by omega), if_pos hlt, if_neg (by omega)]
    simp

theorem script_is_op_n_eval (op : Nat) (h1 : 81 ≤ op) (h2 : op ≤ 96) :
    script_is_op_n op false = some (op - 81 + 1) := by
  unfold script_is_op_n
  rw [if_neg (by simp), if_pos (by simp only [OP_1, OP_16]; omega)]
  simp [OP_1]

theorem multisig_pushes_ok_template (keys : List (List Nat)) (tail : List Nat)
    (htail : tail.length = 2)
    (hkey : ∀ k ∈ keys, k.length = 33 ∨ k.length = 65) :
    multisig_pushes_ok keys.length
      (keys.flatMap (fun k => k.length :: k) ++ tail) = true := by
  induction keys with
  | nil => simp [multisig_pushes_ok, htail]
  | cons k ks ih =>
    have hk := hkey k (by simp)
    have hrest : ∀ k' ∈ ks, k'.length = 33 ∨ k'.length = 65 :=
      fun k' h' => hkey k' (by simp [h'])
    have hL : ((k :: ks).flatMap (fun k => k.length :: k) ++ tail) =
        k.length :: (k ++ (ks.flatMap (fun k => k.length :: k) ++ tail)) := by
      simp
    rw [List.length_cons, hL]
    have hRlen : 2 ≤ (ks.flatMap (fun k => k.length :: k) ++ tail).length := by
      simp [htail]
    have hget := get_push_size_direct
      (k.length :: (k ++ (ks.flatMap (fun k => k.length :: k) ++ tail)))
      k.length (by simp) (by omega) (by simp; omega)
    simp only [multisig_pushes_ok, hget.1, hget.2]
    have hpk : is_pk_len k.length = true := by
      simp [is_pk_len, EC_PUBLIC_KEY_LEN, EC_PUBLIC_KEY_UNCOMPRESSED_LEN]
      omega
    have hsz : 1 + k.length + 2 ≤
        (k.length :: (k ++ (ks.flatMap (fun k => k.length :: k) ++ tail))).length := by
      simp
      omega
    rw [hpk]
    rw [decide_eq_true hsz]
    have hdrop : (k.length :: (k ++ (ks.flatMap (fun k => k.length :: k) ++ tail))).drop
        (1 + k.length) = ks.flatMap (fun k => k.length :: k) ++ tail := by
      rw [show 1 + k.length = k.length + 1 by omega, List.drop_succ_cons, List.drop_left]
    rw [hdrop, ih hrest]
    simp

theorem flatMap_keys_len_ge (keys : List (List Nat))
    (hkey : ∀ k ∈ keys, k.length = 33 ∨ k.length = 65) :
    34 * keys.length ≤ (keys.flatMap (fun k => k.length :: k)).length := by
  induction keys with
  | nil => simp
  | cons k ks ih =>
    have hk := hkey k (by simp)
    have ih2 := ih (fun k' h' => hkey k' (by simp [h']))
    simp only [List.flatMap_cons, List.length_append, List.length_cons]
    rcases hk with hk | hk <;> omega

/-- C9: the multisig matcher never compares the leading threshold
opcode with the trailing key-count opcode: a script OP_m followed by k
valid key pushes, OP_k and OP_CHECKMULTISIG is classified Multisig even
when m exceeds k. -/
theorem claim_C9_multisig_threshold_unchecked (m : Nat) (keys : List (List Nat))
    (hm1 : 1 ≤ m) (hm16 : m ≤ 16) (hk1 : 1 ≤ keys.length) (hk16 : keys.length ≤ 16)
    (hmk : keys.length < m)
    (hkey : ∀ k ∈ keys, k.length = 33 ∨ k.length = 65) :
    wally_scriptpubkey_get_type
      (value_to_op_n m :: (keys.flatMap (fun k => k.length :: k) ++
        [value_to_op_n keys.length, OP_CHECKMULTISIG])) =
      some WALLY_SCRIPT_TYPE_MULTISIG := by
  have hopm : value_to_op_n m = 80 + m := by
    rw [value_to_op_n, if_neg (by omega)]
    simp only [OP_1]
    omega
  have hopk : value_to_op_n keys.length = 80 + keys.length := by
    rw [value_to_op_n, if_neg (by omega)]
    simp only [OP_1]
    omega
  have hflat := flatMap_keys_len_ge keys hkey
  have hS2 : (value_to_op_n m :: (keys.flatMap (fun k => k.length :: k) ++
      [value_to_op_n keys.length, OP_CHECKMULTISIG])) =
      (value_to_op_n m :: keys.flatMap (fun k => k.length :: k)) ++
        [value_to_op_n keys.length, OP_CHECKMULTISIG] := by
    simp
  have hlenS : (value_to_op_n m :: (keys.flatMap (fun k => k.length :: k) ++
      [value_to_op_n keys.length, OP_CHECKMULTISIG])).length =
      (keys.flatMap (fun k => k.length :: k)).length + 3 := by
    simp
  have hlast : (value_to_op_n m :: (keys.flatMap (fun k => k.length :: k) ++
      [value_to_op_n keys.length, OP_CHECKMULTISIG])).getD
      ((keys.flatMap (fun k => k.length :: k)).length + 2) 0 = OP_CHECKMULTISIG := by
    rw [hS2]
    rw [List.getD_append_right _ _ _ _ (by simp)]
    simp
  have hlast2 : (value_to_op_n m :: (keys.flatMap (fun k => k.length :: k) ++
      [value_to_op_n keys.length, OP_CHECKMULTISIG])).getD
      ((keys.flatMap (fun k => k.length :: k)).length + 1) 0 =
      value_to_op_n keys.length := by
    rw [hS2]
    rw [List.getD_append_right _ _ _ _ (by simp)]
    simp
  have hmul : scriptpubkey_is_multisig
      (value_to_op_n m :: (keys.flatMap (fun k => k.length :: k) ++
        [value_to_op_n keys.length, OP_CHECKMULTISIG])) = true := by
    have hop0 : script_is_op_n (value_to_op_n m) false = some (m - 1 + 1) := by
      rw [hopm, script_is_op_n_eval (80 + m) (by omega) (by omega)]
      congr 1
      omega
    have hopk2 : script_is_op_n (value_to_op_n keys.length) false = some keys.length := by
      rw [hopk, script_is_op_n_eval (80 + keys.length) (by omega) (by omega)]
      congr 1
      omega
    unfold scriptpubkey_is_multisig
    rw [if_neg (by rw [hlenS]; omega)]
    rw [hlenS]
    rw [show (keys.flatMap (fun k => k.length :: k)).length + 3 - 1 =
      (keys.flatMap (fun k => k.length :: k)).length + 2 by omega]
    rw [show (keys.flatMap (fun k => k.length :: k)).length + 3 - 2 =
      (keys.flatMap (fun k => k.length :: k)).length + 1 by omega]
    rw [List.getD_cons_zero, hop0]
    rw [if_neg (by simp)]
    rw [hlast, hlast2]
    rw [if_neg (by simp [OP_CHECKMULTISIG])]
    rw [hopk2]
    rw [List.drop_succ_cons, List.drop_zero]
    exact multisig_pushes_ok_template keys _ (by simp) hkey
  unfold wally_scriptpubkey_get_type
  rw [if_neg (by rw [hlenS]; omega)]
  rw [if_neg (fun hh => by
    have h5 := ((is_op_return_iff _).mp hh).2
    rw [List.getD_cons_zero, hopm, OP_RETURN] at h5
    omega)]
  rw [hmul]
  simp

/-- Witness for C9 at a concrete input. -/
theorem claim_C9_multisig_threshold_unchecked_witness :
    wally_scriptpubkey_get_type
      (value_to_op_n 2 :: ([List.replicate 33 5].flatMap (fun k => k.length :: k) ++
        [value_to_op_n 1, OP_CHECKMULTISIG])) = some WALLY_SCRIPT_TYPE_MULTISIG := by
  have h := claim_C9_multisig_threshold_unchecked 2 [List.replicate 33 5]
    (by norm_num) (by norm_num) (by norm_num) (by norm_num) (by norm_num)
    (by intro k hk; simp at hk; subst hk; simp)
  simpa using h

/-! ### Claim C2: CSV template A build / classify round trip -/

theorem scriptintBytes_144 : scriptintBytes 144 = [144] := by
  rw [scriptintBytes_cons 144 (by norm_num)]
  norm_num [scriptintBytes_eq_nil]

theorem scriptint_get_length_144 : scriptint_get_length (Int.ofNat 144) = 2 := by
  simp [scriptint_get_length, scriptintBytes_144]

theorem scriptint_to_bytes_144 : scriptint_to_bytes (Int.ofNat 144) = [144, 0] := by
  simp [scriptint_to_bytes, scriptintBytes_144]

theorem scriptint_from_bytes_csvrest (u : List Nat) :
    scriptint_from_bytes (2 :: 144 :: 0 :: u) (u.length + 3) = some 144 := by
  unfold scriptint_from_bytes
  simp only [List.getD_cons_zero, List.getD_cons_succ]
  rw [if_neg (by omega)]
  have hloop : scriptintOrLoop (2 :: 144 :: 0 :: u) 2 = 144 := by
    simp [scriptintOrLoop, List.range_succ]
  rw [hloop]
  norm_num

/-- The template A matcher accepts the delay-144 skeleton and recovers
144 for any 33-byte keys. -/
theorem csv_matcher_144 (main rec2 : List Nat) (hmain : main.length = 33)
    (hrec : rec2.length = 33) :
    scriptpubkey_is_csv_2of2_then_1
      ([OP_DEPTH, OP_1SUB, OP_IF, 33] ++ (main ++
        (OP_CHECKSIGVERIFY :: OP_ELSE :: 2 :: 144 :: 0 ::
          OP_CHECKSEQUENCEVERIFY :: OP_DROP :: OP_ENDIF :: 33 ::
          (rec2 ++ [OP_CHECKSIG])))) = some 144 := by
  have hlenS : ([OP_DEPTH, OP_1SUB, OP_IF, 33] ++ (main ++
      (OP_CHECKSIGVERIFY :: OP_ELSE :: 2 :: 144 :: 0 ::
        OP_CHECKSEQUENCEVERIFY :: OP_DROP :: OP_ENDIF :: 33 ::
        (rec2 ++ [OP_CHECKSIG])))).length = 80 := by
    simp [hmain, hrec]
  have hg37 : ([OP_DEPTH, OP_1SUB, OP_IF, 33] ++ (main ++
      (OP_CHECKSIGVERIFY :: OP_ELSE :: 2 :: 144 :: 0 ::
        OP_CHECKSEQUENCEVERIFY :: OP_DROP :: OP_ENDIF :: 33 ::
        (rec2 ++ [OP_CHECKSIG])))).getD 37 0 = OP_CHECKSIGVERIFY := by
    rw [List.getD_append_right _ _ _ _ (by simp)]
    simp only [List.length_cons, List.length_nil]
    rw [List.getD_append_right _ _ _ _ (by omega)]
    rw [hmain]
    simp
  have hg38 : ([OP_DEPTH, OP_1SUB, OP_IF, 33] ++ (main ++
      (OP_CHECKSIGVERIFY :: OP_ELSE :: 2 :: 144 :: 0 ::
        OP_CHECKSEQUENCEVERIFY :: OP_DROP :: OP_ENDIF :: 33 ::
        (rec2 ++ [OP_CHECKSIG])))).getD 38 0 = OP_ELSE := by
    rw [List.getD_append_right _ _ _ _ (by simp)]
    simp only [List.length_cons, List.length_nil]
    rw [List.getD_append_right _ _ _ _ (by omega)]
    rw [hmain]
    simp
  have hdrop : ([OP_DEPTH, OP_1SUB, OP_IF, 33] ++ (main ++
      (OP_CHECKSIGVERIFY :: OP_ELSE :: 2 :: 144 :: 0 ::
        OP_CHECKSEQUENCEVERIFY :: OP_DROP :: OP_ENDIF :: 33 ::
        (rec2 ++ [OP_CHECKSIG])))).drop 39 =
      2 :: 144 :: 0 :: (OP_CHECKSEQUENCEVERIFY :: OP_DROP :: OP_ENDIF :: 33 ::
        (rec2 ++ [OP_CHECKSIG])) := by
    rw [show (39 : Nat) = [OP_DEPTH, OP_1SUB, OP_IF, 33].length + 35 by simp,
      List.drop_append]
    rw [show (35 : Nat) = main.length + 2 by omega, List.drop_append]
    simp
  unfold scriptpubkey_is_csv_2of2_then_1
  rw [if_neg (by rw [hlenS]; simp only [EC_PUBLIC_KEY_LEN]; omega)]
  rw [if_neg (by
    simp only [EC_PUBLIC_KEY_LEN, Nat.reduceAdd]
    rw [hg37, hg38]
    simp only [List.cons_append, List.nil_append, List.getD_cons_zero,
      List.getD_cons_succ]
    simp [OP_DEPTH, OP_1SUB, OP_IF, OP_CHECKSIGVERIFY, OP_ELSE])]
  simp only [EC_PUBLIC_KEY_LEN, Nat.reduceAdd]
  have hrestlen : (2 :: 144 :: 0 :: (OP_CHECKSEQUENCEVERIFY :: OP_DROP :: OP_ENDIF :: 33 ::
      (rec2 ++ [OP_CHECKSIG]))).length =
      (OP_CHECKSEQUENCEVERIFY :: OP_DROP :: OP_ENDIF :: 33 :: (rec2 ++ [OP_CHECKSIG])).length
        + 3 := by
    simp
  simp only [hdrop, hrestlen, scriptint_from_bytes_csvrest]
  rw [if_neg (by norm_num)]
  simp only [List.getD_cons_zero, List.getD_cons_succ, Nat.reduceAdd,
    List.drop_succ_cons, List.drop_zero]
  have hg37b : (OP_CHECKSEQUENCEVERIFY :: OP_DROP :: OP_ENDIF :: 33 ::
      (rec2 ++ [OP_CHECKSIG])).getD 37 0 = OP_CHECKSIG := by
    simp only [List.getD_cons_succ]
    rw [List.getD_append_right _ _ _ _ (by omega)]
    rw [hrec]
    simp
  rw [if_neg (by simp [hrec])]
  rw [if_neg (by
    push_neg
    refine ⟨rfl, rfl, rfl, rfl, ?_⟩
    rw [List.getD_append_right _ _ _ _ (by omega), hrec]
    simp)]
  simp

/-- C2: building the CSV template A scriptPubkey from two 33-byte keys
with delay 144 and a sufficient buffer succeeds writing 80 bytes; the
classifier tags the produced bytes Csv2of2Then1 and the delay accessor
recovers 144. -/
theorem claim_C2_csv_roundtrip (main rec2 buf : List Nat) (hmain : main.length = 33)
    (hrec : rec2.length = 33) (hbuf : 80 ≤ buf.length) :
    ∃ out, wally_scriptpubkey_csv_2of2_then_1_from_bytes (main ++ rec2) 144 0 buf =
        (WALLY_OK, out, 80) ∧
      wally_scriptpubkey_get_type (out.take 80) = some WALLY_SCRIPT_TYPE_CSV2OF2_1 ∧
      wally_scriptpubkey_csv_blocks_from_csv_2of2_then_1 (out.take 80) = some 144 := by
  have hS : ([OP_DEPTH, OP_1SUB, OP_IF, EC_PUBLIC_KEY_LEN] ++
      (main ++ rec2).take EC_PUBLIC_KEY_LEN ++
      [OP_CHECKSIGVERIFY, OP_ELSE, 2 &&& 0xff] ++
      scriptint_to_bytes (Int.ofNat 144) ++
      [OP_CHECKSEQUENCEVERIFY, OP_DROP, OP_ENDIF, EC_PUBLIC_KEY_LEN] ++
      ((main ++ rec2).drop EC_PUBLIC_KEY_LEN).take EC_PUBLIC_KEY_LEN ++ [OP_CHECKSIG]) =
      [OP_DEPTH, OP_1SUB, OP_IF, 33] ++ (main ++
        (OP_CHECKSIGVERIFY :: OP_ELSE :: 2 :: 144 :: 0 ::
          OP_CHECKSEQUENCEVERIFY :: OP_DROP :: OP_ENDIF :: 33 ::
          (rec2 ++ [OP_CHECKSIG]))) := by
    rw [scriptint_to_bytes_144]
    simp only [EC_PUBLIC_KEY_LEN]
    rw [show (main ++ rec2).take 33 = main by
      rw [← hmain, List.take_left]]
    rw [show (main ++ rec2).drop 33 = rec2 by
      rw [← hmain, List.drop_left]]
    rw [show rec2.take 33 = rec2 by rw [← hrec, List.take_length]]
    simp
    decide
  have hSlen : ([OP_DEPTH, OP_1SUB, OP_IF, 33] ++ (main ++
      (OP_CHECKSIGVERIFY :: OP_ELSE :: 2 :: 144 :: 0 ::
        OP_CHECKSEQUENCEVERIFY :: OP_DROP :: OP_ENDIF :: 33 ::
        (rec2 ++ [OP_CHECKSIG])))).length = 80 := by
    simp [hmain, hrec]
  have hbuild : wally_scriptpubkey_csv_2of2_then_1_from_bytes (main ++ rec2) 144 0 buf =
      (WALLY_OK, ([OP_DEPTH, OP_1SUB, OP_IF, 33] ++ (main ++
        (OP_CHECKSIGVERIFY :: OP_ELSE :: 2 :: 144 :: 0 ::
          OP_CHECKSEQUENCEVERIFY :: OP_DROP :: OP_ENDIF :: 33 ::
          (rec2 ++ [OP_CHECKSIG])))) ++ buf.drop 80, 80) := by
    unfold wally_scriptpubkey_csv_2of2_then_1_from_bytes
    rw [scriptint_get_length_144]
    rw [if_neg (by simp only [EC_PUBLIC_KEY_LEN]; push_neg
                   refine ⟨by simp [hmain, hrec], by norm_num, by norm_num, rfl⟩)]
    rw [if_neg (by simp only [EC_PUBLIC_KEY_LEN]; omega)]
    rw [hS]
    unfold writeAt
    simp only [hSlen]
    simp only [List.take_zero, List.nil_append, Nat.zero_add]
    rw [show 2 * (EC_PUBLIC_KEY_LEN + 1) + 9 + 1 + 2 = 80 by simp [EC_PUBLIC_KEY_LEN]]
  refine ⟨_, hbuild, ?_, ?_⟩
  · have htake : (([OP_DEPTH, OP_1SUB, OP_IF, 33] ++ (main ++
        (OP_CHECKSIGVERIFY :: OP_ELSE :: 2 :: 144 :: 0 ::
          OP_CHECKSEQUENCEVERIFY :: OP_DROP :: OP_ENDIF :: 33 ::
          (rec2 ++ [OP_CHECKSIG])))) ++ buf.drop 80).take 80 =
        [OP_DEPTH, OP_1SUB, OP_IF, 33] ++ (main ++
          (OP_CHECKSIGVERIFY :: OP_ELSE :: 2 :: 144 :: 0 ::
            OP_CHECKSEQUENCEVERIFY :: OP_DROP :: OP_ENDIF :: 33 ::
            (rec2 ++ [OP_CHECKSIG]))) := by
      rw [← hSlen, List.take_left]
    rw [htake]
    unfold wally_scriptpubkey_get_type
    rw [if_neg (by rw [hSlen]; omega)]
    rw [if_neg (fun hh => by
      have h5 := ((is_op_return_iff _).mp hh).2
      simp only [List.cons_append, List.nil_append, List.getD_cons_zero] at h5
      simp [OP_DEPTH, OP_RETURN] at h5)]
    have hmul : scriptpubkey_is_multisig
        ([OP_DEPTH, OP_1SUB, OP_IF, 33] ++ (main ++
          (OP_CHECKSIGVERIFY :: OP_ELSE :: 2 :: 144 :: 0 ::
            OP_CHECKSEQUENCEVERIFY :: OP_DROP :: OP_ENDIF :: 33 ::
            (rec2 ++ [OP_CHECKSIG])))) = false := by
      unfold scriptpubkey_is_multisig
      rw [if_neg (by rw [hSlen]; omega)]
      rw [if_pos (by
        simp only [List.cons_append, List.nil_append, List.getD_cons_zero]
        decide)]
    rw [hmul]
    simp only [Bool.false_eq_true, if_false]
    rw [csv_matcher_144 main rec2 hmain hrec]
  · have htake : (([OP_DEPTH, OP_1SUB, OP_IF, 33] ++ (main ++
        (OP_CHECKSIGVERIFY :: OP_ELSE :: 2 :: 144 :: 0 ::
          OP_CHECKSEQUENCEVERIFY :: OP_DROP :: OP_ENDIF :: 33 ::
          (rec2 ++ [OP_CHECKSIG])))) ++ buf.drop 80).take 80 =
        [OP_DEPTH, OP_1SUB, OP_IF, 33] ++ (main ++
          (OP_CHECKSIGVERIFY :: OP_ELSE :: 2 :: 144 :: 0 ::
            OP_CHECKSEQUENCEVERIFY :: OP_DROP :: OP_ENDIF :: 33 ::
            (rec2 ++ [OP_CHECKSIG]))) := by
      rw [← hSlen, List.take_left]
    rw [htake]
    unfold wally_scriptpubkey_csv_blocks_from_csv_2of2_then_1
    rw [if_neg (by rw [hSlen]; omega)]
    rw [csv_matcher_144 main rec2 hmain hrec]

/-- Witness for C2 at a concrete input. -/
theorem claim_C2_csv_roundtrip_witness :
    ∃ out, wally_scriptpubkey_csv_2of2_then_1_from_bytes
        (List.replicate 33 1 ++ List.replicate 33 2) 144 0 (List.replicate 80 0) =
        (WALLY_OK, out, 80) ∧
      wally_scriptpubkey_get_type (out.take 80) = some WALLY_SCRIPT_TYPE_CSV2OF2_1 ∧
      wally_scriptpubkey_csv_blocks_from_csv_2of2_then_1 (out.take 80) = some 144 :=
  claim_C2_csv_roundtrip (List.replicate 33 1) (List.replicate 33 2)
    (List.replicate 80 0) (by simp) (by simp) (by simp)

/-- `memcmpLe` is total: one of the two comparisons always holds. -/
theorem memcmpLe_total (a b : List Nat) : (memcmpLe a b || memcmpLe b a) = true := by
  induction a generalizing b with
  | nil => simp [memcmpLe]
  | cons x as ih =>
    cases b with
    | nil => simp [memcmpLe]
    | cons y bs =>
      simp only [memcmpLe]
      rcases Nat.lt_trichotomy x y with h | h | h
      · simp [h]
      · subst h
        simpa [Nat.lt_irrefl] using ih bs
      · simp [h, Nat.lt_asymm h]

/-- `memcmpLe` is transitive. -/
theorem memcmpLe_trans (a b c : List Nat) (hab : memcmpLe a b = true)
    (hbc : memcmpLe b c = true) : memcmpLe a c = true := by
  induction a generalizing b c with
  | nil => simp [memcmpLe]
  | cons x as ih =>
    cases b with
    | nil => simp [memcmpLe] at hab
    | cons y bs =>
      cases c with
      | nil => simp [memcmpLe] at hbc
      | cons z cs =>
        simp only [memcmpLe] at hab hbc ⊢
        rcases Nat.lt_trichotomy x y with h1 | h1 | h1
        · rcases Nat.lt_trichotomy y z with h2 | h2 | h2
          · simp [Nat.lt_trans h1 h2]
          · subst h2; simp [h1]
          · simp [h2, Nat.lt_asymm h2] at hbc
        · subst h1
          rcases Nat.lt_trichotomy x z with h2 | h2 | h2
          · simp [h2]
          · subst h2
            simp only [Nat.lt_irrefl, if_false] at hab hbc ⊢
            exact ih bs cs hab hbc
          · simp [h2, Nat.lt_asymm h2] at hbc
        · simp [h1, Nat.lt_asymm h1] at hab

/-- `memcmpLe` is antisymmetric. -/
theorem memcmpLe_antisymm (a b : List Nat) (hab : memcmpLe a b = true)
    (hba : memcmpLe b a = true) : a = b := by
  induction a generalizing b with
  | nil =>
    cases b with
    | nil => rfl
    | cons y bs => simp [memcmpLe] at hba
  | cons x as ih =>
    cases b with
    | nil => simp [memcmpLe] at hab
    | cons y bs =>
      simp only [memcmpLe] at hab hba
      rcases Nat.lt_trichotomy x y with h | h | h
      · simp [h, Nat.lt_asymm h] at hba
      · subst h
        simp only [Nat.lt_irrefl, if_false] at hab hba
        rw [ih bs hab hba]
      · simp [h, Nat.lt_asymm h] at hab

/-- `chunk33` of the empty array. -/
theorem chunk33_nil : chunk33 [] = [] := by
  rw [chunk33]
  simp

/-- `chunk33` peels off a leading 33-byte chunk. -/
theorem chunk33_cons33 (k rest : List Nat) (hk : k.length = 33) :
    chunk33 (k ++ rest) = k :: chunk33 rest := by
  rw [chunk33]
  rw [dif_neg (by simp [hk])]
  congr 1
  · rw [← hk, List.take_left]
  · congr 1
    rw [← hk, List.drop_left]

/-- `chunk33` recovers the chunks of a flattened list of 33-byte keys. -/
theorem chunk33_flatten_33 (ks : List (List Nat)) (h : ∀ k ∈ ks, k.length = 33) :
    chunk33 ks.flatten = ks := by
  induction ks with
  | nil => simpa using chunk33_nil
  | cons k ks ih =>
    rw [List.flatten_cons, chunk33_cons33 k ks.flatten (h k (by simp))]
    rw [ih (fun k hk => h k (by simp [hk]))]

/-- Merge sort under `memcmpLe` is invariant under permutation of its
input: the comparator is total, transitive and antisymmetric, so both
sorts produce the unique sorted arrangement of the multiset. -/
theorem mergeSort_memcmpLe_eq_of_perm (l l2 : List (List Nat)) (h : l.Perm l2) :
    l.mergeSort memcmpLe = l2.mergeSort memcmpLe := by
  haveI : IsAntisymm (List Nat) (fun a b => memcmpLe a b = true) :=
    ⟨fun a b hab hba => memcmpLe_antisymm a b hab hba⟩
  refine @List.eq_of_perm_of_sorted (List Nat) (fun a b => memcmpLe a b = true) _ _ _ ?_ ?_ ?_
  · exact ((List.mergeSort_perm l memcmpLe).trans h).trans
      (List.mergeSort_perm l2 memcmpLe).symm
  · exact List.sorted_mergeSort (fun a b c => memcmpLe_trans a b c)
      (fun a b => memcmpLe_total a b) l
  · exact List.sorted_mergeSort (fun a b c => memcmpLe_trans a b c)
      (fun a b => memcmpLe_total a b) l2

/-- C6: building a 2-of-3 multisig with the MULTISIG_SORTED flag from
three distinct 33-byte keys produces byte-identical output for every
permutation of the input key order. -/
theorem claim_C6_multisig_sorted (k1 k2 k3 : List Nat) (perm2 : List (List Nat))
    (buf : List Nat) (h1 : k1.length = 33) (h2 : k2.length = 33) (h3 : k3.length = 33)
    (h12 : k1 ≠ k2) (h13 : k1 ≠ k3) (h23 : k2 ≠ k3)
    (hperm : perm2.Perm [k1, k2, k3]) :
    wally_scriptpubkey_multisig_from_bytes perm2.flatten 2
        WALLY_SCRIPT_MULTISIG_SORTED buf =
      wally_scriptpubkey_multisig_from_bytes (k1 ++ k2 ++ k3) 2
        WALLY_SCRIPT_MULTISIG_SORTED buf := by
  have hchunkL : chunk33 perm2.flatten = perm2 := by
    refine chunk33_flatten_33 perm2 (fun k hk => ?_)
    have hmem := (hperm.mem_iff).mp hk
    simp only [List.mem_cons, List.not_mem_nil, or_false] at hmem
    rcases hmem with rfl | rfl | rfl <;> assumption
  have hchunkR : chunk33 (k1 ++ k2 ++ k3) = [k1, k2, k3] := by
    have hre : k1 ++ k2 ++ k3 = ([k1, k2, k3] : List (List Nat)).flatten := by simp
    rw [hre]
    refine chunk33_flatten_33 _ (fun k hk => ?_)
    simp only [List.mem_cons, List.not_mem_nil, or_false] at hk
    rcases hk with rfl | rfl | rfl <;> assumption
  have hflatlen : perm2.flatten.length = 99 := by
    rw [List.length_flatten, (hperm.map List.length).sum_eq]
    simp [h1, h2, h3]
  have hrhslen : (k1 ++ k2 ++ k3).length = 99 := by simp [h1, h2, h3]
  have hsorteq : perm2.mergeSort memcmpLe =
      ([k1, k2, k3] : List (List Nat)).mergeSort memcmpLe :=
    mergeSort_memcmpLe_eq_of_perm _ _ hperm
  have hflag : ((WALLY_SCRIPT_MULTISIG_SORTED : Nat) &&&
      WALLY_SCRIPT_MULTISIG_SORTED ≠ 0) := by decide
  simp only [wally_scriptpubkey_multisig_from_bytes, hflatlen, hrhslen,
    hchunkL, hchunkR, hsorteq, if_pos hflag]

/-- Witness for C6 at three concrete distinct keys and one transposition. -/
theorem claim_C6_multisig_sorted_witness :
    wally_scriptpubkey_multisig_from_bytes
        ([List.replicate 33 2, List.replicate 33 1, List.replicate 33 3] :
          List (List Nat)).flatten 2 WALLY_SCRIPT_MULTISIG_SORTED
        (List.replicate 105 0) =
      wally_scriptpubkey_multisig_from_bytes
        (List.replicate 33 1 ++ List.replicate 33 2 ++ List.replicate 33 3) 2
        WALLY_SCRIPT_MULTISIG_SORTED (List.replicate 105 0) :=
  claim_C6_multisig_sorted (List.replicate 33 1) (List.replicate 33 2)
    (List.replicate 33 3) _ _ (by simp) (by simp) (by simp)
    (by decide) (by decide) (by decide)
    (List.Perm.swap (List.replicate 33 1) (List.replicate 33 2) [List.replicate 33 3])

/-- `writeAt` preserves the buffer length when the write fits. -/
theorem writeAt_length (buf : List Nat) (off : Nat) (data : List Nat)
    (h : off + data.length ≤ buf.length) : (writeAt buf off data).length = buf.length := by
  simp only [writeAt, List.length_append, List.length_take, List.length_drop]
  omega

/-- Splicing back the exact region a nested call received restores the
buffer. -/
theorem spliceRegion_restore (buf : List Nat) (off cap : Nat) :
    spliceRegion buf off cap ((buf.drop off).take cap) = buf := by
  simp only [spliceRegion]
  conv_rhs => rw [← List.take_append_drop off buf]
  rw [List.append_assoc]
  congr 1
  rw [show buf.drop (off + cap) = (buf.drop off).drop cap by
    rw [List.drop_drop]
    try congr 1
    try omega]
  exact List.take_append_drop cap (buf.drop off)

/-- Push opcodes for payloads under 76 bytes are a single byte. -/
theorem calc_push_small (n : Nat) (h : n < 76) : calc_push_opcode_size n = 1 := by
  unfold calc_push_opcode_size
  rw [if_pos h]

/-- `wally_script_push_from_bytes` with no flags and a direct (< 76
byte) payload: EINVAL on an empty buffer, the required size on an
undersized buffer, the pushed bytes otherwise. -/
theorem push_flags0_small (h160 sha : List Nat → List Nat) (bytes buf : List Nat)
    (hlen : bytes.length < 76) :
    wally_script_push_from_bytes h160 sha bytes 0 buf =
      if buf.length = 0 then (WALLY_EINVAL, buf, 0)
      else if buf.length < bytes.length + 1 then (WALLY_OK, buf, bytes.length + 1)
      else (WALLY_OK, writeAt buf 0 (bytes.length :: bytes), bytes.length + 1) := by
  simp only [wally_script_push_from_bytes]
  have hsfo : script_flags_ok 0 0 = true := by decide
  by_cases h0 : buf.length = 0
  · have hc : ¬script_flags_ok 0 0 = true ∨ buf.length = 0 := Or.inr h0
    rw [if_pos hc, if_pos h0]
  · have hc : ¬(¬script_flags_ok 0 0 = true ∨ buf.length = 0) := by
      push_neg
      exact ⟨hsfo, h0⟩
    rw [if_neg hc, if_neg h0]
    have hB1 : ((0 : Nat) &&& WALLY_SCRIPT_HASH160 ≠ 0) = False := eq_false (by decide)
    have hB2 : ((0 : Nat) &&& WALLY_SCRIPT_SHA256 ≠ 0) = False := eq_false (by decide)
    simp only [hB1, hB2, if_false]
    rw [calc_push_small bytes.length hlen]
    by_cases hsz : buf.length < bytes.length + 1
    · rw [if_pos hsz, if_pos hsz]
    · rw [if_neg hsz, if_neg hsz, if_pos hlen]
      rw [List.singleton_append]

/-- p2pkh with a 20-byte hash, no flags and an empty buffer is EINVAL. -/
theorem p2pkh_len0 (h160 sha : List Nat → List Nat) (pkh : List Nat) :
    wally_scriptpubkey_p2pkh_from_bytes h160 sha pkh 0 [] = (WALLY_EINVAL, [], 0) := by
  simp only [wally_scriptpubkey_p2pkh_from_bytes]
  have hc : pkh.length = 0 ∨ ¬script_flags_ok 0 0 = true ∨
      (0 : Nat) &&& WALLY_SCRIPT_SHA256 ≠ 0 ∨ ([] : List Nat).length = 0 :=
    Or.inr (Or.inr (Or.inr rfl))
  rw [if_pos hc]

/-- p2pkh with an undersized non-empty buffer reports 25 and does not
write. -/
theorem p2pkh_undersized (h160 sha : List Nat → List Nat) (pkh buf : List Nat)
    (hpkh : pkh.length = 20) (h1 : 1 ≤ buf.length) (h2 : buf.length < 25) :
    wally_scriptpubkey_p2pkh_from_bytes h160 sha pkh 0 buf = (WALLY_OK, buf, 25) := by
  simp only [wally_scriptpubkey_p2pkh_from_bytes]
  have hg : ¬(pkh.length = 0 ∨ ¬script_flags_ok 0 0 = true ∨
      (0 : Nat) &&& WALLY_SCRIPT_SHA256 ≠ 0 ∨ buf.length = 0) := by
    push_neg
    exact ⟨by omega, by decide, by decide, by omega⟩
  rw [if_neg hg]
  have hsz : buf.length < WALLY_SCRIPTPUBKEY_P2PKH_LEN := by
    simp only [WALLY_SCRIPTPUBKEY_P2PKH_LEN]
    omega
  rw [if_pos hsz]
  rfl

/-- p2pkh with a sufficient buffer writes the 25-byte script. -/
theorem p2pkh_sized (h160 sha : List Nat → List Nat) (pkh buf : List Nat)
    (hpkh : pkh.length = 20) (h1 : 25 ≤ buf.length) :
    ∃ out, wally_scriptpubkey_p2pkh_from_bytes h160 sha pkh 0 buf =
      (WALLY_OK, out, 25) := by
  simp only [wally_scriptpubkey_p2pkh_from_bytes]
  have hg : ¬(pkh.length = 0 ∨ ¬script_flags_ok 0 0 = true ∨
      (0 : Nat) &&& WALLY_SCRIPT_SHA256 ≠ 0 ∨ buf.length = 0) := by
    push_neg
    exact ⟨by omega, by decide, by decide, by omega⟩
  rw [if_neg hg]
  have hsz : ¬(buf.length < WALLY_SCRIPTPUBKEY_P2PKH_LEN) := by
    simp only [WALLY_SCRIPTPUBKEY_P2PKH_LEN]
    omega
  rw [if_neg hsz]
  have h3 : (if (0 : Nat) &&& WALLY_SCRIPT_HASH160 ≠ 0 then
      pkh.length ≠ EC_PUBLIC_KEY_LEN ∧ pkh.length ≠ EC_PUBLIC_KEY_UNCOMPRESSED_LEN
    else pkh.length ≠ HASH160_LEN) = (pkh.length ≠ HASH160_LEN) := if_neg (by decide)
  simp only [h3]
  have h4 : ¬(pkh.length ≠ HASH160_LEN) := by simp [hpkh, HASH160_LEN]
  rw [if_neg h4]
  rw [push_flags0_small h160 sha pkh _ (by omega)]
  have hnest : (((writeAt buf 0 [OP_DUP, OP_HASH160]).drop 2).take (buf.length - 4)).length
      = buf.length - 4 := by
    rw [List.length_take, List.length_drop, writeAt_length _ _ _ (by simp; omega)]
    omega
  have h5 : ¬((((writeAt buf 0 [OP_DUP, OP_HASH160]).drop 2).take
      (buf.length - 4)).length = 0) := by
    rw [hnest]
    omega
  have h6 : ¬((((writeAt buf 0 [OP_DUP, OP_HASH160]).drop 2).take
      (buf.length - 4)).length < pkh.length + 1) := by
    rw [hnest]
    omega
  rw [if_neg h5, if_neg h6]
  dsimp only
  rw [if_pos rfl]
  exact ⟨_, rfl⟩

/-- p2sh with an empty buffer is EINVAL. -/
theorem p2sh_len0 (h160 sha : List Nat → List Nat) (pkh : List Nat) :
    wally_scriptpubkey_p2sh_from_bytes h160 sha pkh 0 [] = (WALLY_EINVAL, [], 0) := by
  simp only [wally_scriptpubkey_p2sh_from_bytes]
  have hc : pkh.length = 0 ∨
      (0 : Nat) &&& (0xffffffff ^^^ WALLY_SCRIPT_HASH160) ≠ 0 ∨
      ([] : List Nat).length = 0 := Or.inr (Or.inr rfl)
  rw [if_pos hc]

/-- p2sh with an undersized non-empty buffer reports 23 and does not
write. -/
theorem p2sh_undersized (h160 sha : List Nat → List Nat) (pkh buf : List Nat)
    (hpkh : pkh.length = 20) (h1 : 1 ≤ buf.length) (h2 : buf.length < 23) :
    wally_scriptpubkey_p2sh_from_bytes h160 sha pkh 0 buf = (WALLY_OK, buf, 23) := by
  simp only [wally_scriptpubkey_p2sh_from_bytes]
  have hg : ¬(pkh.length = 0 ∨
      (0 : Nat) &&& (0xffffffff ^^^ WALLY_SCRIPT_HASH160) ≠ 0 ∨ buf.length = 0) := by
    push_neg
    exact ⟨by omega, by decide, by omega⟩
  rw [if_neg hg]
  have hg2 : ¬((0 : Nat) &&& WALLY_SCRIPT_HASH160 = 0 ∧ pkh.length ≠ HASH160_LEN) := by
    simp [hpkh, HASH160_LEN]
  rw [if_neg hg2]
  have hsz : buf.length < WALLY_SCRIPTPUBKEY_P2SH_LEN := by
    simp only [WALLY_SCRIPTPUBKEY_P2SH_LEN]
    omega
  rw [if_pos hsz]
  rfl

/-- p2sh with a sufficient buffer writes the 23-byte script. -/
theorem p2sh_sized (h160 sha : List Nat → List Nat) (pkh buf : List Nat)
    (hpkh : pkh.length = 20) (h1 : 23 ≤ buf.length) :
    ∃ out, wally_scriptpubkey_p2sh_from_bytes h160 sha pkh 0 buf =
      (WALLY_OK, out, 23) := by
  simp only [wally_scriptpubkey_p2sh_from_bytes]
  have hg : ¬(pkh.length = 0 ∨
      (0 : Nat) &&& (0xffffffff ^^^ WALLY_SCRIPT_HASH160) ≠ 0 ∨ buf.length = 0) := by
    push_neg
    exact ⟨by omega, by decide, by omega⟩
  rw [if_neg hg]
  have hg2 : ¬((0 : Nat) &&& WALLY_SCRIPT_HASH160 = 0 ∧ pkh.length ≠ HASH160_LEN) := by
    simp [hpkh, HASH160_LEN]
  rw [if_neg hg2]
  have hsz : ¬(buf.length < WALLY_SCRIPTPUBKEY_P2SH_LEN) := by
    simp only [WALLY_SCRIPTPUBKEY_P2SH_LEN]
    omega
  rw [if_neg hsz]
  rw [push_flags0_small h160 sha pkh _ (by omega)]
  have hnest : (((writeAt buf 0 [OP_HASH160]).drop 1).take (buf.length - 2)).length
      = buf.length - 2 := by
    rw [List.length_take, List.length_drop, writeAt_length _ _ _ (by simp; omega)]
    omega
  have h5 : ¬((((writeAt buf 0 [OP_HASH160]).drop 1).take
      (buf.length - 2)).length = 0) := by
    rw [hnest]
    omega
  have h6 : ¬((((writeAt buf 0 [OP_HASH160]).drop 1).take
      (buf.length - 2)).length < pkh.length + 1) := by
    rw [hnest]
    omega
  rw [if_neg h5, if_neg h6]
  dsimp only
  rw [if_pos rfl]
  exact ⟨_, rfl⟩

/-- 2-of-3 multisig with an empty buffer is EINVAL. -/
theorem multisig_len0 (keys99 : List Nat) :
    wally_scriptpubkey_multisig_from_bytes keys99 2 0 [] = (WALLY_EINVAL, [], 0) := by
  simp only [wally_scriptpubkey_multisig_from_bytes]
  split
  · rfl
  · next h =>
    simp at h

/-- 2-of-3 multisig with an undersized non-empty buffer reports 105 and
does not write. -/
theorem multisig_undersized (keys99 buf : List Nat) (hk99 : keys99.length = 99)
    (h1 : 1 ≤ buf.length) (h2 : buf.length < 105) :
    wally_scriptpubkey_multisig_from_bytes keys99 2 0 buf = (WALLY_OK, buf, 105) := by
  simp only [wally_scriptpubkey_multisig_from_bytes]
  have hg : ¬(keys99.length = 0 ∨ keys99.length % EC_PUBLIC_KEY_LEN ≠ 0 ∨
      keys99.length / EC_PUBLIC_KEY_LEN < 1 ∨ keys99.length / EC_PUBLIC_KEY_LEN > 15 ∨
      2 < 1 ∨ 2 > 15 ∨ 2 > keys99.length / EC_PUBLIC_KEY_LEN ∨
      (0 : Nat) &&& (0xffffffff ^^^ WALLY_SCRIPT_MULTISIG_SORTED) ≠ 0 ∨
      buf.length = 0) := by
    rw [hk99]
    push_neg
    exact ⟨by norm_num, by decide, by decide, by decide, by norm_num, by norm_num,
      by decide, by decide, by omega⟩
  rw [if_neg hg]
  have hlen105 : 3 + keys99.length / EC_PUBLIC_KEY_LEN * (EC_PUBLIC_KEY_LEN + 1)
      = 105 := by
    rw [hk99]
    decide
  simp only [hlen105]
  rw [if_pos (show buf.length < 105 by omega)]

/-- 2-of-3 multisig with a sufficient buffer writes the 105-byte
script. -/
theorem multisig_sized (keys99 buf : List Nat) (hk99 : keys99.length = 99)
    (h1 : 105 ≤ buf.length) :
    ∃ out, wally_scriptpubkey_multisig_from_bytes keys99 2 0 buf =
      (WALLY_OK, out, 105) := by
  simp only [wally_scriptpubkey_multisig_from_bytes]
  have hg : ¬(keys99.length = 0 ∨ keys99.length % EC_PUBLIC_KEY_LEN ≠ 0 ∨
      keys99.length / EC_PUBLIC_KEY_LEN < 1 ∨ keys99.length / EC_PUBLIC_KEY_LEN > 15 ∨
      2 < 1 ∨ 2 > 15 ∨ 2 > keys99.length / EC_PUBLIC_KEY_LEN ∨
      (0 : Nat) &&& (0xffffffff ^^^ WALLY_SCRIPT_MULTISIG_SORTED) ≠ 0 ∨
      buf.length = 0) := by
    rw [hk99]
    push_neg
    exact ⟨by norm_num, by decide, by decide, by decide, by norm_num, by norm_num,
      by decide, by decide, by omega⟩
  rw [if_neg hg]
  have hlen105 : 3 + keys99.length / EC_PUBLIC_KEY_LEN * (EC_PUBLIC_KEY_LEN + 1)
      = 105 := by
    rw [hk99]
    decide
  simp only [hlen105]
  rw [if_neg (show ¬(buf.length < 105) by omega)]
  exact ⟨_, rfl⟩

/-- CSV template A with delay 144 and any undersized buffer (including
an empty one) reports 80 and does not write. -/
theorem csvA_sizing (csvk buf : List Nat) (hcsv : csvk.length = 66)
    (h2 : buf.length < 80) :
    wally_scriptpubkey_csv_2of2_then_1_from_bytes csvk 144 0 buf =
      (WALLY_OK, buf, 80) := by
  simp only [wally_scriptpubkey_csv_2of2_then_1_from_bytes, scriptint_get_length_144]
  have hg : ¬(csvk.length ≠ 2 * EC_PUBLIC_KEY_LEN ∨ 144 < 17 ∨ 144 > 65535 ∨
      (0 : Nat) ≠ 0) := by
    push_neg
    refine ⟨by rw [hcsv]; decide, by norm_num, by norm_num, rfl⟩
  rw [if_neg hg]
  have hsl : 2 * (EC_PUBLIC_KEY_LEN + 1) + 9 + 1 + 2 = 80 := by decide
  simp only [hsl]
  rw [if_pos (show buf.length < 80 by omega)]

/-- CSV template A with delay 144 and a sufficient buffer writes the
80-byte script. -/
theorem csvA_sized (csvk buf : List Nat) (hcsv : csvk.length = 66)
    (h1 : 80 ≤ buf.length) :
    ∃ out, wally_scriptpubkey_csv_2of2_then_1_from_bytes csvk 144 0 buf =
      (WALLY_OK, out, 80) := by
  simp only [wally_scriptpubkey_csv_2of2_then_1_from_bytes, scriptint_get_length_144]
  have hg : ¬(csvk.length ≠ 2 * EC_PUBLIC_KEY_LEN ∨ 144 < 17 ∨ 144 > 65535 ∨
      (0 : Nat) ≠ 0) := by
    push_neg
    refine ⟨by rw [hcsv]; decide, by norm_num, by norm_num, rfl⟩
  rw [if_neg hg]
  have hsl : 2 * (EC_PUBLIC_KEY_LEN + 1) + 9 + 1 + 2 = 80 := by decide
  simp only [hsl]
  rw [if_neg (show ¬(buf.length < 80) by omega)]
  exact ⟨_, rfl⟩

/-- CSV template B with delay 144 and any undersized buffer (including
an empty one) reports 77 and does not write. -/
theorem csvB_sizing (csvk buf : List Nat) (hcsv : csvk.length = 66)
    (h2 : buf.length < 77) :
    wally_scriptpubkey_csv_2of2_then_1_from_bytes_opt csvk 144 0 buf =
      (WALLY_OK, buf, 77) := by
  simp only [wally_scriptpubkey_csv_2of2_then_1_from_bytes_opt,
    scriptint_get_length_144]
  have hg : ¬(csvk.length ≠ 2 * EC_PUBLIC_KEY_LEN ∨ 144 < 17 ∨ 144 > 65535 ∨
      (0 : Nat) ≠ 0) := by
    push_neg
    refine ⟨by rw [hcsv]; decide, by norm_num, by norm_num, rfl⟩
  rw [if_neg hg]
  have hsl : 2 * (EC_PUBLIC_KEY_LEN + 1) + 6 + 1 + 2 = 77 := by decide
  simp only [hsl]
  rw [if_pos (show buf.length < 77 by omega)]

/-- CSV template B with delay 144 and a sufficient buffer writes the
77-byte script. -/
theorem csvB_sized (csvk buf : List Nat) (hcsv : csvk.length = 66)
    (h1 : 77 ≤ buf.length) :
    ∃ out, wally_scriptpubkey_csv_2of2_then_1_from_bytes_opt csvk 144 0 buf =
      (WALLY_OK, out, 77) := by
  simp only [wally_scriptpubkey_csv_2of2_then_1_from_bytes_opt,
    scriptint_get_length_144]
  have hg : ¬(csvk.length ≠ 2 * EC_PUBLIC_KEY_LEN ∨ 144 < 17 ∨ 144 > 65535 ∨
      (0 : Nat) ≠ 0) := by
    push_neg
    refine ⟨by rw [hcsv]; decide, by norm_num, by norm_num, rfl⟩
  rw [if_neg hg]
  have hsl : 2 * (EC_PUBLIC_KEY_LEN + 1) + 6 + 1 + 2 = 77 := by decide
  simp only [hsl]
  rw [if_neg (show ¬(buf.length < 77) by omega)]
  exact ⟨_, rfl⟩

/-- p2tr with an x-only key and any undersized buffer (including an
empty one) reports 34 and does not write. -/
theorem p2tr_sizing (bip341 : List Nat → Nat → Option (List Nat))
    (xonly buf : List Nat) (h2 : buf.length < 34) :
    wally_scriptpubkey_p2tr_from_bytes bip341 xonly 0 buf = (WALLY_OK, buf, 34) := by
  simp only [wally_scriptpubkey_p2tr_from_bytes]
  have hg : ¬((0 : Nat) &&& (0xffffffff ^^^ EC_FLAG_ELEMENTS) ≠ 0) := by decide
  rw [if_neg hg]
  have hsz : buf.length < WALLY_SCRIPTPUBKEY_P2TR_LEN := by
    simp only [WALLY_SCRIPTPUBKEY_P2TR_LEN]
    omega
  rw [if_pos hsz]
  rfl

/-- p2tr with a 32-byte x-only key and a sufficient buffer writes the
34-byte script. -/
theorem p2tr_sized (bip341 : List Nat → Nat → Option (List Nat))
    (xonly buf : List Nat) (hx : xonly.length = 32) (h1 : 34 ≤ buf.length) :
    ∃ out, wally_scriptpubkey_p2tr_from_bytes bip341 xonly 0 buf =
      (WALLY_OK, out, 34) := by
  simp only [wally_scriptpubkey_p2tr_from_bytes]
  have hg : ¬((0 : Nat) &&& (0xffffffff ^^^ EC_FLAG_ELEMENTS) ≠ 0) := by decide
  rw [if_neg hg]
  have hsz : ¬(buf.length < WALLY_SCRIPTPUBKEY_P2TR_LEN) := by
    simp only [WALLY_SCRIPTPUBKEY_P2TR_LEN]
    omega
  rw [if_neg hsz]
  have h33 : ¬(xonly.length = EC_PUBLIC_KEY_LEN) := by
    simp [hx, EC_PUBLIC_KEY_LEN]
  rw [if_neg h33]
  have h32 : ¬(xonly.length ≠ EC_XONLY_PUBLIC_KEY_LEN) := by
    simp [hx, EC_XONLY_PUBLIC_KEY_LEN]
  rw [if_neg h32]
  exact ⟨_, rfl⟩

/-- OP_RETURN with an empty buffer is EINVAL. -/
theorem opreturn_len0 (h160 sha : List Nat → List Nat) (data : List Nat) :
    wally_scriptpubkey_op_return_from_bytes h160 sha data 0 [] =
      (WALLY_EINVAL, [], 0) := by
  simp only [wally_scriptpubkey_op_return_from_bytes]
  have hc : data.length > WALLY_MAX_OP_RETURN_LEN ∨ (0 : Nat) ≠ 0 ∨
      ([] : List Nat).length = 0 := Or.inr (Or.inr rfl)
  rw [if_pos hc]

/-- OP_RETURN with a one-byte buffer is EINVAL: the nested push sees a
zero-capacity buffer. -/
theorem opreturn_len1 (h160 sha : List Nat → List Nat) (data buf : List Nat)
    (hd75 : data.length ≤ 75) (h1 : buf.length = 1) :
    wally_scriptpubkey_op_return_from_bytes h160 sha data 0 buf =
      (WALLY_EINVAL, buf, 0) := by
  simp only [wally_scriptpubkey_op_return_from_bytes]
  have hg : ¬(data.length > WALLY_MAX_OP_RETURN_LEN ∨ (0 : Nat) ≠ 0 ∨
      buf.length = 0) := by
    push_neg
    exact ⟨by simp only [WALLY_MAX_OP_RETURN_LEN]; omega, rfl, by omega⟩
  rw [if_neg hg]
  rw [push_flags0_small h160 sha data _ (by omega)]
  have hnest : ((buf.drop 1).take (buf.length - 1)).length = 0 := by
    rw [List.length_take, List.length_drop]
    omega
  rw [if_pos hnest]
  dsimp only
  rw [spliceRegion_restore]
  rw [if_neg (show ¬(WALLY_EINVAL = WALLY_OK) by decide)]

/-- OP_RETURN with an undersized buffer of at least two bytes reports
the required size but nevertheless stores the OP_RETURN byte. -/
theorem opreturn_probe (h160 sha : List Nat → List Nat) (data buf : List Nat)
    (hd75 : data.length ≤ 75) (h1 : 2 ≤ buf.length)
    (h2 : buf.length < data.length + 2) :
    wally_scriptpubkey_op_return_from_bytes h160 sha data 0 buf =
      (WALLY_OK, OP_RETURN :: buf.drop 1, data.length + 2) := by
  simp only [wally_scriptpubkey_op_return_from_bytes]
  have hg : ¬(data.length > WALLY_MAX_OP_RETURN_LEN ∨ (0 : Nat) ≠ 0 ∨
      buf.length = 0) := by
    push_neg
    exact ⟨by simp only [WALLY_MAX_OP_RETURN_LEN]; omega, rfl, by omega⟩
  rw [if_neg hg]
  rw [push_flags0_small h160 sha data _ (by omega)]
  have hnest : ((buf.drop 1).take (buf.length - 1)).length = buf.length - 1 := by
    rw [List.length_take, List.length_drop]
    omega
  have h5 : ¬(((buf.drop 1).take (buf.length - 1)).length = 0) := by
    rw [hnest]
    omega
  have h6 : ((buf.drop 1).take (buf.length - 1)).length < data.length + 1 := by
    rw [hnest]
    omega
  rw [if_neg h5, if_pos h6]
  dsimp only
  rw [spliceRegion_restore]
  rw [if_pos rfl]
  simp [writeAt]

/-- OP_RETURN with a sufficient buffer writes the data push behind the
OP_RETURN byte. -/
theorem opreturn_sized (h160 sha : List Nat → List Nat) (data buf : List Nat)
    (hd75 : data.length ≤ 75) (h1 : data.length + 2 ≤ buf.length) :
    ∃ out, wally_scriptpubkey_op_return_from_bytes h160 sha data 0 buf =
      (WALLY_OK, out, data.length + 2) := by
  simp only [wally_scriptpubkey_op_return_from_bytes]
  have hg : ¬(data.length > WALLY_MAX_OP_RETURN_LEN ∨ (0 : Nat) ≠ 0 ∨
      buf.length = 0) := by
    push_neg
    exact ⟨by simp only [WALLY_MAX_OP_RETURN_LEN]; omega, rfl, by omega⟩
  rw [if_neg hg]
  rw [push_flags0_small h160 sha data _ (by omega)]
  have hnest : ((buf.drop 1).take (buf.length - 1)).length = buf.length - 1 := by
    rw [List.length_take, List.length_drop]
    omega
  have h5 : ¬(((buf.drop 1).take (buf.length - 1)).length = 0) := by
    rw [hnest]
    omega
  have h6 : ¬(((buf.drop 1).take (buf.length - 1)).length < data.length + 1) := by
    rw [hnest]
    omega
  rw [if_neg h5, if_neg h6]
  dsimp only
  rw [if_pos rfl]
  exact ⟨_, rfl⟩

/-- Witness program v0 with an empty buffer is EINVAL. -/
theorem witprog_len0 (h160 sha : List Nat → List Nat) (wit : List Nat) :
    wally_witness_program_from_bytes_and_version h160 sha wit 0 0 [] =
      (WALLY_EINVAL, [], 0) := by
  simp only [wally_witness_program_from_bytes_and_version]
  have hc : (0 : Nat) > 16 ∨ ¬script_flags_ok 0 WALLY_SCRIPT_AS_PUSH = true ∨
      ([] : List Nat).length = 0 := Or.inr (Or.inr rfl)
  rw [if_pos hc]

/-- Witness program v0 with a one-byte buffer stores the version byte
and then fails with EINVAL: the nested push sees a zero-capacity
buffer. -/
theorem witprog_len1 (h160 sha : List Nat → List Nat) (wit buf : List Nat)
    (hwit : wit.length = 32) (h1 : buf.length = 1) :
    wally_witness_program_from_bytes_and_version h160 sha wit 0 0 buf =
      (WALLY_EINVAL, writeAt buf 0 [value_to_op_n 0], 0) := by
  simp only [wally_witness_program_from_bytes_and_version]
  have hg1 : ¬((0 : Nat) > 16 ∨ ¬script_flags_ok 0 WALLY_SCRIPT_AS_PUSH = true ∨
      buf.length = 0) := by
    push_neg
    exact ⟨by norm_num, by decide, by omega⟩
  rw [if_neg hg1]
  have hg2 : ¬(if (0 : Nat) &&& ALL_SCRIPT_HASH_FLAGS ≠ 0 then wit.length = 0
      else if True ∧ wit.length ≠ HASH160_LEN ∧ wit.length ≠ SHA256_LEN
        then True
      else wit.length < 2 ∨ wit.length > WALLY_WITNESSSCRIPT_MAX_LEN - 2) := by
    rw [if_neg (show ¬((0 : Nat) &&& ALL_SCRIPT_HASH_FLAGS ≠ 0) by decide)]
    rw [if_neg (show ¬(True ∧ wit.length ≠ HASH160_LEN ∧
      wit.length ≠ SHA256_LEN) by simp [hwit, SHA256_LEN])]
    push_neg
    exact ⟨by omega, by simp only [WALLY_WITNESSSCRIPT_MAX_LEN]; omega⟩
  rw [if_neg hg2]
  have hg3 : ¬((0 : Nat) &&& WALLY_SCRIPT_AS_PUSH ≠ 0 ∧ buf.length < 2) := by
    simp
  rw [if_neg hg3]
  have hoff : ((0 : Nat) &&& WALLY_SCRIPT_AS_PUSH ≠ 0) = False := eq_false (by decide)
  simp only [hoff, if_false, Nat.zero_add, Nat.sub_zero]
  rw [show (0 : Nat) &&& (0xffffffff ^^^ WALLY_SCRIPT_AS_PUSH) = 0 from by decide]
  rw [push_flags0_small h160 sha wit _ (by omega)]
  have hnest : (((writeAt buf 0 [value_to_op_n 0]).drop 1).take
      (buf.length - 1)).length = 0 := by
    rw [List.length_take, List.length_drop]
    omega
  rw [if_pos hnest]
  dsimp only
  rw [spliceRegion_restore]
  rw [if_neg (show ¬(WALLY_EINVAL = WALLY_OK) by decide)]

/-- Witness program v0 (32-byte script hash) with an undersized buffer
of at least two bytes reports 34 but stores the version byte. -/
theorem witprog_probe (h160 sha : List Nat → List Nat) (wit buf : List Nat)
    (hwit : wit.length = 32) (h1 : 2 ≤ buf.length) (h2 : buf.length < 34) :
    wally_witness_program_from_bytes_and_version h160 sha wit 0 0 buf =
      (WALLY_OK, writeAt buf 0 [value_to_op_n 0], 34) := by
  simp only [wally_witness_program_from_bytes_and_version]
  have hg1 : ¬((0 : Nat) > 16 ∨ ¬script_flags_ok 0 WALLY_SCRIPT_AS_PUSH = true ∨
      buf.length = 0) := by
    push_neg
    exact ⟨by norm_num, by decide, by omega⟩
  rw [if_neg hg1]
  have hg2 : ¬(if (0 : Nat) &&& ALL_SCRIPT_HASH_FLAGS ≠ 0 then wit.length = 0
      else if True ∧ wit.length ≠ HASH160_LEN ∧ wit.length ≠ SHA256_LEN
        then True
      else wit.length < 2 ∨ wit.length > WALLY_WITNESSSCRIPT_MAX_LEN - 2) := by
    rw [if_neg (show ¬((0 : Nat) &&& ALL_SCRIPT_HASH_FLAGS ≠ 0) by decide)]
    rw [if_neg (show ¬(True ∧ wit.length ≠ HASH160_LEN ∧
      wit.length ≠ SHA256_LEN) by simp [hwit, SHA256_LEN])]
    push_neg
    exact ⟨by omega, by simp only [WALLY_WITNESSSCRIPT_MAX_LEN]; omega⟩
  rw [if_neg hg2]
  have hg3 : ¬((0 : Nat) &&& WALLY_SCRIPT_AS_PUSH ≠ 0 ∧ buf.length < 2) := by
    simp
  rw [if_neg hg3]
  have hoff : ((0 : Nat) &&& WALLY_SCRIPT_AS_PUSH ≠ 0) = False := eq_false (by decide)
  simp only [hoff, if_false, Nat.zero_add, Nat.sub_zero]
  rw [show (0 : Nat) &&& (0xffffffff ^^^ WALLY_SCRIPT_AS_PUSH) = 0 from by decide]
  rw [push_flags0_small h160 sha wit _ (by omega)]
  have hnest : (((writeAt buf 0 [value_to_op_n 0]).drop 1).take
      (buf.length - 1)).length = buf.length - 1 := by
    rw [List.length_take, List.length_drop, writeAt_length _ _ _ (by simp; omega)]
    omega
  have h5 : ¬((((writeAt buf 0 [value_to_op_n 0]).drop 1).take
      (buf.length - 1)).length = 0) := by
    rw [hnest]
    omega
  have h6 : (((writeAt buf 0 [value_to_op_n 0]).drop 1).take
      (buf.length - 1)).length < wit.length + 1 := by
    rw [hnest, hwit]
    omega
  rw [if_neg h5, if_pos h6]
  dsimp only
  rw [spliceRegion_restore]
  rw [if_pos rfl]
  rw [hwit]

/-- Witness program v0 with a sufficient buffer writes the 34-byte
script. -/
theorem witprog_sized (h160 sha : List Nat → List Nat) (wit buf : List Nat)
    (hwit : wit.length = 32) (h1 : 34 ≤ buf.length) :
    ∃ out, wally_witness_program_from_bytes_and_version h160 sha wit 0 0 buf =
      (WALLY_OK, out, 34) := by
  simp only [wally_witness_program_from_bytes_and_version]
  have hg1 : ¬((0 : Nat) > 16 ∨ ¬script_flags_ok 0 WALLY_SCRIPT_AS_PUSH = true ∨
      buf.length = 0) := by
    push_neg
    exact ⟨by norm_num, by decide, by omega⟩
  rw [if_neg hg1]
  have hg2 : ¬(if (0 : Nat) &&& ALL_SCRIPT_HASH_FLAGS ≠ 0 then wit.length = 0
      else if True ∧ wit.length ≠ HASH160_LEN ∧ wit.length ≠ SHA256_LEN
        then True
      else wit.length < 2 ∨ wit.length > WALLY_WITNESSSCRIPT_MAX_LEN - 2) := by
    rw [if_neg (show ¬((0 : Nat) &&& ALL_SCRIPT_HASH_FLAGS ≠ 0) by decide)]
    rw [if_neg (show ¬(True ∧ wit.length ≠ HASH160_LEN ∧
      wit.length ≠ SHA256_LEN) by simp [hwit, SHA256_LEN])]
    push_neg
    exact ⟨by omega, by simp only [WALLY_WITNESSSCRIPT_MAX_LEN]; omega⟩
  rw [if_neg hg2]
  have hg3 : ¬((0 : Nat) &&& WALLY_SCRIPT_AS_PUSH ≠ 0 ∧ buf.length < 2) := by
    simp
  rw [if_neg hg3]
  have hoff : ((0 : Nat) &&& WALLY_SCRIPT_AS_PUSH ≠ 0) = False := eq_false (by decide)
  simp only [hoff, if_false, Nat.zero_add, Nat.sub_zero]
  rw [show (0 : Nat) &&& (0xffffffff ^^^ WALLY_SCRIPT_AS_PUSH) = 0 from by decide]
  rw [push_flags0_small h160 sha wit _ (by omega)]
  have hnest : (((writeAt buf 0 [value_to_op_n 0]).drop 1).take
      (buf.length - 1)).length = buf.length - 1 := by
    rw [List.length_take, List.length_drop, writeAt_length _ _ _ (by simp; omega)]
    omega
  have h5 : ¬((((writeAt buf 0 [value_to_op_n 0]).drop 1).take
      (buf.length - 1)).length = 0) := by
    rw [hnest]
    omega
  have h6 : ¬((((writeAt buf 0 [value_to_op_n 0]).drop 1).take
      (buf.length - 1)).length < wit.length + 1) := by
    rw [hnest, hwit]
    omega
  rw [if_neg h5, if_neg h6]
  dsimp only
  rw [if_pos rfl]
  exact ⟨_, by rw [hwit]⟩

/-- C1 (corrected): each builder reports from an undersized buffer the
exact length a sufficiently-buffered call writes, but a zero-length
buffer is EINVAL (written 0) for the p2pkh, p2sh, multisig, OP_RETURN
and witness-program builders rather than a sizing probe (only the CSV
and p2tr builders size an empty buffer); moreover OP_RETURN is EINVAL
for a one-byte buffer and stores its OP_RETURN byte during a probe, and
the witness-program builder is likewise EINVAL for a one-byte buffer
(after storing the version byte) and stores the version byte during a
probe. -/
theorem claim_C1_sizing_contract
    (h160 sha : List Nat → List Nat) (bip341 : List Nat → Nat → Option (List Nat))
    (pkh keys99 csvk data wit xonly : List Nat)
    (hpkh : pkh.length = 20) (hk99 : keys99.length = 99) (hcsv : csvk.length = 66)
    (hd75 : data.length ≤ 75) (hwit : wit.length = 32) (hx : xonly.length = 32) :
    (wally_scriptpubkey_p2pkh_from_bytes h160 sha pkh 0 [] = (WALLY_EINVAL, [], 0)) ∧
    (∀ buf : List Nat, 1 ≤ buf.length → buf.length < 25 →
      wally_scriptpubkey_p2pkh_from_bytes h160 sha pkh 0 buf = (WALLY_OK, buf, 25)) ∧
    (∀ buf : List Nat, 25 ≤ buf.length →
      ∃ out, wally_scriptpubkey_p2pkh_from_bytes h160 sha pkh 0 buf =
        (WALLY_OK, out, 25)) ∧
    (wally_scriptpubkey_p2sh_from_bytes h160 sha pkh 0 [] = (WALLY_EINVAL, [], 0)) ∧
    (∀ buf : List Nat, 1 ≤ buf.length → buf.length < 23 →
      wally_scriptpubkey_p2sh_from_bytes h160 sha pkh 0 buf = (WALLY_OK, buf, 23)) ∧
    (∀ buf : List Nat, 23 ≤ buf.length →
      ∃ out, wally_scriptpubkey_p2sh_from_bytes h160 sha pkh 0 buf =
        (WALLY_OK, out, 23)) ∧
    (wally_scriptpubkey_multisig_from_bytes keys99 2 0 [] = (WALLY_EINVAL, [], 0)) ∧
    (∀ buf : List Nat, 1 ≤ buf.length → buf.length < 105 →
      wally_scriptpubkey_multisig_from_bytes keys99 2 0 buf = (WALLY_OK, buf, 105)) ∧
    (∀ buf : List Nat, 105 ≤ buf.length →
      ∃ out, wally_scriptpubkey_multisig_from_bytes keys99 2 0 buf =
        (WALLY_OK, out, 105)) ∧
    (∀ buf : List Nat, buf.length < 80 →
      wally_scriptpubkey_csv_2of2_then_1_from_bytes csvk 144 0 buf =
        (WALLY_OK, buf, 80)) ∧
    (∀ buf : List Nat, 80 ≤ buf.length →
      ∃ out, wally_scriptpubkey_csv_2of2_then_1_from_bytes csvk 144 0 buf =
        (WALLY_OK, out, 80)) ∧
    (∀ buf : List Nat, buf.length < 77 →
      wally_scriptpubkey_csv_2of2_then_1_from_bytes_opt csvk 144 0 buf =
        (WALLY_OK, buf, 77)) ∧
    (∀ buf : List Nat, 77 ≤ buf.length →
      ∃ out, wally_scriptpubkey_csv_2of2_then_1_from_bytes_opt csvk 144 0 buf =
        (WALLY_OK, out, 77)) ∧
    (∀ buf : List Nat, buf.length < 34 →
      wally_scriptpubkey_p2tr_from_bytes bip341 xonly 0 buf = (WALLY_OK, buf, 34)) ∧
    (∀ buf : List Nat, 34 ≤ buf.length →
      ∃ out, wally_scriptpubkey_p2tr_from_bytes bip341 xonly 0 buf =
        (WALLY_OK, out, 34)) ∧
    (wally_scriptpubkey_op_return_from_bytes h160 sha data 0 [] =
      (WALLY_EINVAL, [], 0)) ∧
    (∀ buf : List Nat, buf.length = 1 →
      wally_scriptpubkey_op_return_from_bytes h160 sha data 0 buf =
        (WALLY_EINVAL, buf, 0)) ∧
    (∀ buf : List Nat, 2 ≤ buf.length → buf.length < data.length + 2 →
      wally_scriptpubkey_op_return_from_bytes h160 sha data 0 buf =
        (WALLY_OK, OP_RETURN :: buf.drop 1, data.length + 2)) ∧
    (∀ buf : List Nat, data.length + 2 ≤ buf.length →
      ∃ out, wally_scriptpubkey_op_return_from_bytes h160 sha data 0 buf =
        (WALLY_OK, out, data.length + 2)) ∧
    (wally_witness_program_from_bytes_and_version h160 sha wit 0 0 [] =
      (WALLY_EINVAL, [], 0)) ∧
    (∀ buf : List Nat, buf.length = 1 →
      wally_witness_program_from_bytes_and_version h160 sha wit 0 0 buf =
        (WALLY_EINVAL, writeAt buf 0 [value_to_op_n 0], 0)) ∧
    (∀ buf : List Nat, 2 ≤ buf.length → buf.length < 34 →
      wally_witness_program_from_bytes_and_version h160 sha wit 0 0 buf =
        (WALLY_OK, writeAt buf 0 [value_to_op_n 0], 34)) ∧
    (∀ buf : List Nat, 34 ≤ buf.length →
      ∃ out, wally_witness_program_from_bytes_and_version h160 sha wit 0 0 buf =
        (WALLY_OK, out, 34)) := by
  refine ⟨p2pkh_len0 h160 sha pkh,
    fun buf ha hb => p2pkh_undersized h160 sha pkh buf hpkh ha hb,
    fun buf ha => p2pkh_sized h160 sha pkh buf hpkh ha,
    p2sh_len0 h160 sha pkh,
    fun buf ha hb => p2sh_undersized h160 sha pkh buf hpkh ha hb,
    fun buf ha => p2sh_sized h160 sha pkh buf hpkh ha,
    multisig_len0 keys99,
    fun buf ha hb => multisig_undersized keys99 buf hk99 ha hb,
    fun buf ha => multisig_sized keys99 buf hk99 ha,
    fun buf hb => csvA_sizing csvk buf hcsv hb,
    fun buf ha => csvA_sized csvk buf hcsv ha,
    fun buf hb => csvB_sizing csvk buf hcsv hb,
    fun buf ha => csvB_sized csvk buf hcsv ha,
    fun buf hb => p2tr_sizing bip341 xonly buf hb,
    fun buf ha => p2tr_sized bip341 xonly buf hx ha,
    opreturn_len0 h160 sha data,
    fun buf hb => opreturn_len1 h160 sha data buf hd75 hb,
    fun buf ha hb => opreturn_probe h160 sha data buf hd75 ha hb,
    fun buf ha => opreturn_sized h160 sha data buf hd75 ha,
    witprog_len0 h160 sha wit,
    fun buf hb => witprog_len1 h160 sha wit buf hwit hb,
    fun buf ha hb => witprog_probe h160 sha wit buf hwit ha hb,
    fun buf ha => witprog_sized h160 sha wit buf hwit ha⟩

/-- C1 counterexample: a zero-length buffer makes the p2pkh builder
return EINVAL with written 0, while the sufficiently-buffered call
writes 25 bytes — the zero-length probe does not report 25. -/
theorem claim_C1_counterexample :
    wally_scriptpubkey_p2pkh_from_bytes (fun _ => List.replicate 20 0)
        (fun _ => List.replicate 32 0) (List.replicate 20 7) 0 [] =
      (WALLY_EINVAL, [], 0) ∧
    (wally_scriptpubkey_p2pkh_from_bytes (fun _ => List.replicate 20 0)
        (fun _ => List.replicate 32 0) (List.replicate 20 7) 0
        (List.replicate 25 0)).2.2 = 25 := by
  constructor
  · decide
  · decide

/-- Witness for C1 at concrete keys, data and buffers. -/
theorem claim_C1_sizing_contract_witness :
    wally_scriptpubkey_p2pkh_from_bytes (fun _ => List.replicate 20 0)
        (fun _ => List.replicate 32 0) (List.replicate 20 7) 0
        (List.replicate 10 0) = (WALLY_OK, List.replicate 10 0, 25) ∧
    wally_scriptpubkey_csv_2of2_then_1_from_bytes (List.replicate 66 1) 144 0 [] =
      (WALLY_OK, [], 80) ∧
    wally_scriptpubkey_op_return_from_bytes (fun _ => List.replicate 20 0)
        (fun _ => List.replicate 32 0) (List.replicate 10 5) 0
        (List.replicate 4 9) =
      (WALLY_OK, OP_RETURN :: (List.replicate 4 9).drop 1,
        (List.replicate 10 5).length + 2) := by
  have H := claim_C1_sizing_contract (fun _ => List.replicate 20 0)
    (fun _ => List.replicate 32 0) (fun _ _ => none)
    (List.replicate 20 7) (List.replicate 99 1) (List.replicate 66 1)
    (List.replicate 10 5) (List.replicate 32 3) (List.replicate 32 4)
    (by simp) (by simp) (by simp) (by simp) (by simp) (by simp)
  obtain ⟨c1, c2, c3, c4, c5, c6, c7, c8, c9, c10, c11, c12, c13, c14, c15, c16,
    c17, c18, c19, c20, c21, c22, c23⟩ := H
  exact ⟨c2 (List.replicate 10 0) (by simp) (by simp), c10 [] (by simp),
    c18 (List.replicate 4 9) (by simp) (by simp)⟩

/-- Two lists agreeing on a prefix agree at every index below it. -/
theorem getD_of_take_eq (l l2 : List Nat) (nn j : Nat) (h : l.take nn = l2.take nn)
    (hj : j < nn) : l.getD j 0 = l2.getD j 0 := by
  rw [List.getD_eq_getElem?_getD, List.getD_eq_getElem?_getD]
  have h1 : (l.take nn)[j]? = (l2.take nn)[j]? := by rw [h]
  rw [List.getElem?_take, List.getElem?_take, if_pos hj, if_pos hj] at h1
  rw [h1]

/-- `getD` through a `take` below the cut. -/
theorem take_getD (l : List Nat) (nn i : Nat) (d : Nat) (hi : i < nn) :
    (l.take nn).getD i d = l.getD i d := by
  rw [List.getD_eq_getElem?_getD, List.getD_eq_getElem?_getD, List.getElem?_take,
    if_pos hi]

/-- `getD` through a `drop`. -/
theorem drop_getD (l : List Nat) (m j : Nat) (d : Nat) :
    (l.drop m).getD j d = l.getD (m + j) d := by
  rw [List.getD_eq_getElem?_getD, List.getD_eq_getElem?_getD, List.getElem?_drop]

/-- `getD` of a replicate below its length. -/
theorem replicate_getD (nn i : Nat) (a d : Bool) (hi : i < nn) :
    (List.replicate nn a).getD i d = a := by
  rw [List.getD_eq_getElem?_getD, List.getElem?_replicate, if_pos hi]
  rfl

/-- Splicing a region of the declared capacity preserves the length. -/
theorem spliceRegion_length (buf region : List Nat) (off cap : Nat)
    (hr : region.length = cap) (h : off + cap ≤ buf.length) :
    (spliceRegion buf off cap region).length = buf.length := by
  simp only [spliceRegion, List.length_append, List.length_take, List.length_drop]
  omega

/-- Splicing leaves the prefix before the region unchanged. -/
theorem spliceRegion_take (buf region : List Nat) (off cap : Nat)
    (h : off ≤ buf.length) :
    (spliceRegion buf off cap region).take off = buf.take off := by
  simp only [spliceRegion]
  rw [List.take_append_of_le_length (by simp; omega),
    List.take_append_of_le_length (by simp; omega), List.take_take, Nat.min_self]

/-- Writing at an offset leaves the prefix before it unchanged. -/
theorem writeAt_take (buf data : List Nat) (off : Nat) (h : off ≤ buf.length) :
    (writeAt buf off data).take off = buf.take off := by
  simp only [writeAt]
  rw [List.take_append_of_le_length (by simp; omega),
    List.take_append_of_le_length (by simp; omega), List.take_take, Nat.min_self]

/-- Reading inside a written region returns the written data. -/
theorem writeAt_getD_inside (buf data : List Nat) (off i : Nat)
    (hi : i < data.length) (h : off ≤ buf.length) :
    (writeAt buf off data).getD (off + i) 0 = data.getD i 0 := by
  simp only [writeAt]
  have hto : (buf.take off).length = off := by
    rw [List.length_take]
    omega
  rw [List.getD_append _ _ _ (off + i)
    (by simp only [List.length_append, hto]; omega)]
  rw [List.getD_append_right _ _ _ _ (by rw [hto]; omega), hto,
    Nat.add_sub_cancel_left]

/-- Frame property of the pegin rewrite walk, by induction on the
remaining script length: the walk preserves the buffer length and the
prefix before its write offset, and copies every byte whose offset the
mask marks as outside a pre-OP_ELSE 33-byte key push. -/
theorem pegin_loop_frame (tw : List Nat → Option (List Nat))
    (htw : ∀ k s, tw k = some s → s.length = 33) :
    ∀ n (p : List Nat), p.length ≤ n → ∀ buf q ob out,
      pegin_loop tw p buf q ob = some out → q + p.length ≤ buf.length →
      out.length = buf.length ∧ out.take q = buf.take q ∧
      (∀ i, i < p.length → (peginMask p ob).getD i false = false →
        out.getD (q + i) 0 = p.getD i 0) := by
  intro n
  induction n with
  | zero =>
    intro p hp buf q ob out hloop hb
    have hpnil : p = [] := List.eq_nil_of_length_eq_zero (by omega)
    subst hpnil
    rw [pegin_loop] at hloop
    rw [Option.some.injEq] at hloop
    subst hloop
    exact ⟨rfl, rfl, fun i hi _ => absurd hi (by simp)⟩
  | succ n ih =>
    intro p hp buf q ob out hloop hb
    cases p with
    | nil =>
      rw [pegin_loop] at hloop
      rw [Option.some.injEq] at hloop
      subst hloop
      exact ⟨rfl, rfl, fun i hi _ => absurd hi (by simp)⟩
    | cons b rest =>
      rw [pegin_loop] at hloop
      cases hps : script_get_push_size_from_bytes (b :: rest) with
      | none =>
        rw [hps] at hloop
        dsimp only at hloop
        have hb2 : q + 1 + rest.length ≤ (writeAt buf q [b]).length := by
          rw [writeAt_length _ _ _
            (by simp only [List.length_singleton]
                simp only [List.length_cons] at hb
                omega)]
          simp only [List.length_cons] at hb
          omega
        obtain ⟨h1, h2, h3⟩ := ih rest
          (by simp only [List.length_cons] at hp; omega)
          (writeAt buf q [b]) (q + 1) (if b = OP_ELSE then true else ob) out hloop hb2
        have hwlen : (writeAt buf q [b]).length = buf.length := by
          rw [writeAt_length _ _ _
            (by simp only [List.length_singleton]
                simp only [List.length_cons] at hb
                omega)]
        refine ⟨by rw [h1, hwlen], ?_, ?_⟩
        · calc out.take q = (out.take (q + 1)).take q := by
                rw [List.take_take]
                congr 1
                omega
            _ = ((writeAt buf q [b]).take (q + 1)).take q := by rw [h2]
            _ = (writeAt buf q [b]).take q := by
                rw [List.take_take]
                congr 1
                omega
            _ = buf.take q := writeAt_take _ _ _
                (by simp only [List.length_cons] at hb; omega)
        · intro i hi hmask
          rw [peginMask] at hmask
          rw [hps] at hmask
          dsimp only at hmask
          cases i with
          | zero =>
            simp only [List.getD_cons_zero]
            have hq : out.getD (q + 0) 0 = (writeAt buf q [b]).getD (q + 0) 0 :=
              getD_of_take_eq _ _ (q + 1) (q + 0) h2 (by omega)
            rw [hq, writeAt_getD_inside buf [b] q 0 (by simp)
              (by simp only [List.length_cons] at hb; omega)]
            rfl
          | succ j =>
            simp only [List.getD_cons_succ] at hmask ⊢
            have hj : j < rest.length := by
              simp only [List.length_cons] at hi
              omega
            have hres := h3 j hj hmask
            rw [show q + (j + 1) = q + 1 + j by omega]
            exact hres
      | some size_out =>
        rw [hps] at hloop
        dsimp only at hloop
        cases hop : script_get_push_opcode_size_from_bytes (b :: rest) with
        | none =>
          rw [hop] at hloop
          dsimp only at hloop
          exact Option.noConfusion hloop
        | some opcode_size =>
          rw [hop] at hloop
          dsimp only at hloop
          have hopp : 1 ≤ opcode_size := get_push_opcode_size_pos _ _ hop
          by_cases hlen : (b :: rest).length < size_out + opcode_size
          · rw [dif_pos hlen] at hloop
            exact Option.noConfusion hloop
          · rw [dif_neg hlen] at hloop
            by_cases hkey : opcode_size = 1 ∧ size_out = EC_PUBLIC_KEY_LEN ∧ ob = false
            · rw [if_pos hkey] at hloop
              obtain ⟨hk1, hk2, hk3⟩ := hkey
              subst hk1
              subst hk2
              subst hk3
              cases htwk : tw (((b :: rest).drop 1).take EC_PUBLIC_KEY_LEN) with
              | none =>
                rw [htwk] at hloop
                dsimp only at hloop
                exact Option.noConfusion hloop
              | some ser =>
                rw [htwk] at hloop
                dsimp only at hloop
                have hser : ser.length = 33 := htw _ _ htwk
                have hec : EC_PUBLIC_KEY_LEN = 33 := rfl
                rw [push_flags0_small _ _ ser _ (by omega)] at hloop
                have hnlen : ((buf.drop q).take (b :: rest).length).length
                    = (b :: rest).length := by
                  rw [List.length_take, List.length_drop]
                  omega
                have hA : ¬(((buf.drop q).take (b :: rest).length).length = 0) := by
                  rw [hnlen]
                  simp
                have hBc : ¬(((buf.drop q).take (b :: rest).length).length
                    < ser.length + 1) := by
                  rw [hnlen]
                  omega
                rw [if_neg hA, if_neg hBc] at hloop
                dsimp only at hloop
                rw [if_pos rfl] at hloop
                have hreg : (writeAt ((buf.drop q).take (b :: rest).length) 0
                    (ser.length :: ser)).length = (b :: rest).length := by
                  rw [writeAt_length _ _ _
                    (by rw [hnlen, List.length_cons ser.length ser]; omega)]
                  exact hnlen
                have hsplen : (spliceRegion buf q (b :: rest).length
                    (writeAt ((buf.drop q).take (b :: rest).length) 0
                      (ser.length :: ser))).length = buf.length :=
                  spliceRegion_length _ _ _ _ hreg (by omega)
                have hb2 : q + (EC_PUBLIC_KEY_LEN + 1) +
                    ((b :: rest).drop (EC_PUBLIC_KEY_LEN + 1)).length ≤
                    (spliceRegion buf q (b :: rest).length
                      (writeAt ((buf.drop q).take (b :: rest).length) 0
                        (ser.length :: ser))).length := by
                  rw [hsplen, List.length_drop]
                  omega
                obtain ⟨h1, h2, h3⟩ := ih ((b :: rest).drop (EC_PUBLIC_KEY_LEN + 1))
                  (by rw [List.length_drop]
                      simp only [List.length_cons] at hp
                      simp only [List.length_cons]
                      omega)
                  _ (q + (EC_PUBLIC_KEY_LEN + 1)) false out hloop hb2
                refine ⟨by rw [h1, hsplen], ?_, ?_⟩
                · calc out.take q
                      = (out.take (q + (EC_PUBLIC_KEY_LEN + 1))).take q := by
                        rw [List.take_take]
                        congr 1
                        omega
                    _ = ((spliceRegion buf q (b :: rest).length
                        (writeAt ((buf.drop q).take (b :: rest).length) 0
                          (ser.length :: ser))).take
                            (q + (EC_PUBLIC_KEY_LEN + 1))).take q := by rw [h2]
                    _ = (spliceRegion buf q (b :: rest).length
                        (writeAt ((buf.drop q).take (b :: rest).length) 0
                          (ser.length :: ser))).take q := by
                        rw [List.take_take]
                        congr 1
                        omega
                    _ = buf.take q := spliceRegion_take _ _ _ _ (by omega)
                · intro i hi hmask
                  rw [peginMask] at hmask
                  rw [hps] at hmask
                  dsimp only at hmask
                  rw [hop] at hmask
                  dsimp only at hmask
                  rw [dif_neg hlen, if_pos ⟨rfl, rfl, rfl⟩] at hmask
                  by_cases hi34 : i < EC_PUBLIC_KEY_LEN + 1
                  · rw [List.getD_append _ _ _ i
                      (by simp only [List.length_replicate]; omega)] at hmask
                    rw [replicate_getD _ _ _ _ hi34] at hmask
                    exact absurd hmask (by simp)
                  · rw [List.getD_append_right _ _ _ _
                      (by simp only [List.length_replicate]; omega)] at hmask
                    simp only [List.length_replicate] at hmask
                    have hlt : i - (EC_PUBLIC_KEY_LEN + 1)
                        < ((b :: rest).drop (EC_PUBLIC_KEY_LEN + 1)).length := by
                      rw [List.length_drop]
                      omega
                    have hres := h3 (i - (EC_PUBLIC_KEY_LEN + 1)) hlt hmask
                    rw [drop_getD] at hres
                    rw [show q + (EC_PUBLIC_KEY_LEN + 1) +
                        (i - (EC_PUBLIC_KEY_LEN + 1)) = q + i by omega] at hres
                    rw [show EC_PUBLIC_KEY_LEN + 1 +
                        (i - (EC_PUBLIC_KEY_LEN + 1)) = i by omega] at hres
                    exact hres
            · rw [if_neg hkey] at hloop
              have hoslen : ((b :: rest).take (size_out + opcode_size)).length
                  = size_out + opcode_size := by
                rw [List.length_take]
                omega
              have hwlen : (writeAt buf q
                  ((b :: rest).take (size_out + opcode_size))).length
                  = buf.length := by
                rw [writeAt_length _ _ _ (by rw [hoslen]; omega)]
              have hb2 : q + (size_out + opcode_size) +
                  ((b :: rest).drop (size_out + opcode_size)).length ≤
                  (writeAt buf q
                    ((b :: rest).take (size_out + opcode_size))).length := by
                rw [hwlen, List.length_drop]
                omega
              obtain ⟨h1, h2, h3⟩ := ih ((b :: rest).drop (size_out + opcode_size))
                (by rw [List.length_drop]
                    simp only [List.length_cons] at hp
                    simp only [List.length_cons]
                    omega)
                _ (q + (size_out + opcode_size)) ob out hloop hb2
              refine ⟨by rw [h1, hwlen], ?_, ?_⟩
              · calc out.take q
                    = (out.take (q + (size_out + opcode_size))).take q := by
                      rw [List.take_take]
                      congr 1
                      omega
                  _ = ((writeAt buf q ((b :: rest).take
                      (size_out + opcode_size))).take
                        (q + (size_out + opcode_size))).take q := by rw [h2]
                  _ = (writeAt buf q ((b :: rest).take
                      (size_out + opcode_size))).take q := by
                      rw [List.take_take]
                      congr 1
                      omega
                  _ = buf.take q := writeAt_take _ _ _ (by omega)
              · intro i hi hmask
                rw [peginMask] at hmask
                rw [hps] at hmask
                dsimp only at hmask
                rw [hop] at hmask
                dsimp only at hmask
                rw [dif_neg hlen, if_neg hkey] at hmask
                by_cases hios : i < size_out + opcode_size
                · have hout : out.getD (q + i) 0 =
                      (writeAt buf q ((b :: rest).take
                        (size_out + opcode_size))).getD (q + i) 0 :=
                    getD_of_take_eq _ _ (q + (size_out + opcode_size)) _ h2 (by omega)
                  rw [hout, writeAt_getD_inside _ _ _ _
                    (by rw [hoslen]; omega) (by omega)]
                  exact take_getD _ _ _ _ hios
                · rw [List.getD_append_right _ _ _ _
                    (by simp only [List.length_replicate]; omega)] at hmask
                  simp only [List.length_replicate] at hmask
                  have hlt : i - (size_out + opcode_size)
                      < ((b :: rest).drop (size_out + opcode_size)).length := by
                    rw [List.length_drop]
                    omega
                  have hres := h3 (i - (size_out + opcode_size)) hlt hmask
                  rw [drop_getD] at hres
                  rw [show q + (size_out + opcode_size) +
                      (i - (size_out + opcode_size)) = q + i by omega] at hres
                  rw [show size_out + opcode_size +
                      (i - (size_out + opcode_size)) = i by omega] at hres
                  exact hres

/-- C5: when the pegin contract-script rewriter succeeds, its output has
exactly the redeem script's byte length, reports that length, and every
byte offset the walk does not mark as part of a pre-OP_ELSE 33-byte
direct key push holds the redeem script's byte unchanged at its original
offset. -/
theorem claim_C5_pegin_frame (tw : List Nat → Option (List Nat))
    (htw : ∀ k s, tw k = some s → s.length = 33)
    (redeem buf : List Nat) (slen : Nat) (out : List Nat) (w : Nat)
    (hsucc : wally_elements_pegin_contract_script_from_bytes tw redeem slen 0 buf =
      (WALLY_OK, out, w)) :
    out.length = redeem.length ∧ w = redeem.length ∧
    (∀ i, i < redeem.length → (peginMask redeem false).getD i false = false →
      out.getD i 0 = redeem.getD i 0) := by
  simp only [wally_elements_pegin_contract_script_from_bytes] at hsucc
  by_cases hg : redeem.length = 0 ∨ slen = 0 ∨ (0 : Nat) ≠ 0 ∨
    buf.length ≠ redeem.length
  · rw [if_pos hg] at hsucc
    exact absurd hsucc (by simp [WALLY_EINVAL, WALLY_OK])
  · rw [if_neg hg] at hsucc
    push_neg at hg
    obtain ⟨hr0, hs0, -, hbl⟩ := hg
    cases hl : pegin_loop tw redeem buf 0 false with
    | none =>
      rw [hl] at hsucc
      dsimp only at hsucc
      exact absurd hsucc (by simp [WALLY_ERROR, WALLY_OK])
    | some o =>
      rw [hl] at hsucc
      dsimp only at hsucc
      rw [Prod.mk.injEq, Prod.mk.injEq] at hsucc
      obtain ⟨-, ho, hw⟩ := hsucc
      subst ho
      subst hw
      obtain ⟨h1, h2, h3⟩ := pegin_loop_frame tw htw redeem.length redeem le_rfl
        buf 0 false o hl (by omega)
      refine ⟨by rw [h1, hbl], rfl, ?_⟩
      intro i hi hm
      have hres := h3 i hi hm
      rwa [Nat.zero_add] at hres

/-- Witness for C5 on a one-opcode redeem script. -/
theorem claim_C5_pegin_frame_witness :
    ([117] : List Nat).length = ([117] : List Nat).length ∧
    (1 : Nat) = ([117] : List Nat).length ∧
    (∀ i, i < ([117] : List Nat).length →
      (peginMask [117] false).getD i false = false →
      ([117] : List Nat).getD i 0 = ([117] : List Nat).getD i 0) :=
  claim_C5_pegin_frame (fun _ => none) (fun k s h => Option.noConfusion h)
    [117] [0] 1 [117] 1 (by
      simp only [wally_elements_pegin_contract_script_from_bytes]
      rw [if_neg (by push_neg; exact ⟨by simp, by norm_num, rfl, by simp⟩)]
      rw [show pegin_loop (fun _ => none) [117] [0] 0 false = some [117] from by
        rw [pegin_loop]
        rw [show script_get_push_size_from_bytes [117] = none from rfl]
        dsimp only
        rw [pegin_loop]
        rfl]
      rfl)
